import Mathlib

/-!
Verification of the arbitrage-screener detection pipeline (`src/app.py`).

The Python source is shallowly embedded below.  Conventions used throughout:

* Python floats are modelled as exact rationals (`ℚ`); `round(x, n)` and the
  `:.1f` / `:.2f` / `:.0f` format specifiers are modelled as exact decimal
  rounding half-to-even (Python's banker's rounding) on `ℚ`.
* Python `dict`s are association lists (`List (String × α)`); `dict.get` is
  `List.lookup`, dict update is `dinsert` (replace in place, append if new).
* A value that may be absent (`None`) is an `Option`.  Python truthiness of an
  optional number (`if x:`) is `truthy`: present and nonzero.
* Code that can raise an exception which the source *catches* is folded into
  the total function (the `except` branch's value is returned); an exception
  the source does *not* catch is modelled by an `Option`-valued result whose
  `none` means "uncaught exception escapes" (see `symbol_ok`,
  `process_symbol`, `run_scan`).
* Wall-clock time is passed explicitly: `nowMs : ℤ` for the millisecond clock
  used by the freshness check, `now : ℚ` for the second clock used by the
  stability tracker.
* The Exchange Gateway (ccxt loading / ticker fetching, spec §6) is external:
  `ScanEnv` holds the already-loaded exchanges and bulk ticker maps exactly as
  `run_scan` sees them after its loading loops (lines 257–277 of the source).
-/

namespace ArbScreener

/-- Python dict truthiness of an optional number: present and nonzero. -/
def truthy : Option ℚ → Bool
  | none => false
  | some x => x ≠ 0

/-- Python `str.upper()` (ASCII case mapping), kept kernel-reducible. -/
def py_upper (s : String) : String := String.mk (s.toList.map Char.toUpper)

/-- Python `str.strip()`: drop leading and trailing whitespace. -/
def py_strip (s : String) : String :=
  String.mk (((s.toList.dropWhile Char.isWhitespace).reverse.dropWhile
    Char.isWhitespace).reverse)

/-- Prefix test on character lists. -/
def list_isPrefix : List Char → List Char → Bool
  | [], _ => true
  | _ :: _, [] => false
  | a :: as, b :: bs => if a = b then list_isPrefix as bs else false

/-- Python `str.startswith(pre)`, kept kernel-reducible. -/
def py_startsWith (s pre : String) : Bool := list_isPrefix pre.toList s.toList

/-- Floor of a rational, via flooring integer division. -/
def rat_floor (q : ℚ) : ℤ := Int.fdiv q.num q.den

/-- Ceiling of a rational. -/
def rat_ceil (q : ℚ) : ℤ := -rat_floor (-q)

/-- Python dict update: replace the binding of `k` in place, else append. -/
def dinsert {α : Type} (l : List (String × α)) (k : String) (v : α) :
    List (String × α) :=
  match l with
  | [] => [(k, v)]
  | (k₁, v₁) :: rest => if k₁ = k then (k, v) :: rest else (k₁, v₁) :: dinsert rest k v

/-- Python `dict.get` on an association list with unique keys: the first
binding of `k`. -/
def dget {α : Type} (l : List (String × α)) (k : String) : Option α :=
  match l with
  | [] => none
  | (k₁, v) :: rest => if k₁ = k then some v else dget rest k

/-- Lookup taking the *last* binding, matching a Python dict comprehension in
which later duplicate keys overwrite earlier ones. -/
def dlookupLast {α : Type} (l : List (String × α)) (k : String) : Option α :=
  dget l.reverse k

/-- Source `USD_QUOTES` (source line 56). -/
def USD_QUOTES : List String := ["USDT", "USD", "USDC", "BUSD"]

/-- Source `LOW_FEE_CHAIN_PRIORITY` (source line 57). -/
def LOW_FEE_CHAIN_PRIORITY : List String :=
  ["TRC20", "BSC", "SOL", "MATIC", "ARB", "OP", "TON", "AVAX", "ETH"]

/-- Source `CHAIN_ALIASES` (source lines 61–67): a bidirectional *swap* table. -/
def CHAIN_ALIASES : List (String × String) :=
  [("BEP20", "BSC"), ("BSC", "BEP20"),
   ("MATIC", "Polygon"), ("Polygon", "MATIC"),
   ("OP", "Optimism"), ("Optimism", "OP"),
   ("ARB", "Arbitrum"), ("Arbitrum", "ARB"),
   ("TRC20", "TRON"), ("TRON", "TRC20")]

/-- Source `normalize_chain` (source lines 69–71): upper-case, strip, then look the
name up in the alias table, defaulting to the name itself. -/
def normalize_chain (name : String) : String :=
  let n := py_strip (py_upper name)
  (dget CHAIN_ALIASES n).getD n

/-- Python `str.split(sep)` for a one-character separator. -/
def splitOnChar (sep : Char) : List Char → List (List Char)
  | [] => [[]]
  | c :: cs =>
    let r := splitOnChar sep cs
    if c = sep then [] :: r
    else
      match r with
      | [] => [[c]]
      | h :: t => (c :: h) :: t

/-- Source `parse_symbol` (source lines 79–81):
`base = symbol.split("/")[0]`, `quote = symbol.split("/")[1].split(":")[0]`.
`none` models the uncaught `IndexError` raised when the symbol has no "/". -/
def parse_symbol (symbol : String) : Option (String × String) :=
  match splitOnChar '/' symbol.toList with
  | b :: q :: _ => some (String.mk b, String.mk ((splitOnChar ':' q).headD []))
  | _ => none

/-- Ticker snapshot (spec §3).  `info` is the exchange-specific raw payload;
an `info` value of `none` is a present-but-unparseable field (Python
`float(val)` raising). -/
structure Ticker where
  last : Option ℚ
  bid : Option ℚ
  ask : Option ℚ
  timestamp : Option ℤ
  quoteVolume : Option ℚ
  baseVolume : Option ℚ
  info : List (String × Option ℚ)
deriving DecidableEq

/-- Source `market_price_from_ticker` (source lines 83–93): prefer the last trade
price, else the bid/ask midpoint; `none` when the ticker is missing/falsy or
neither source is available. -/
def market_price_from_ticker : Option Ticker → Option ℚ
  | none => none
  | some t =>
    match t.last with
    | some l => some l
    | none =>
      match t.bid, t.ask with
      | some b, some a => some ((b + a) / 2)
      | _, _ => none

/-- Source `is_ticker_fresh` (source lines 95–98) with `max_age_sec = 300`:
no timestamp is always-fresh; otherwise age must be ≤ 300 000 ms. -/
def is_ticker_fresh (nowMs : ℤ) (t : Ticker) : Bool :=
  match t.timestamp with
  | none => true
  | some ts => nowMs - ts ≤ 300 * 1000

/-- Python `int()` on an exact value: truncation toward zero. -/
def int_trunc (q : ℚ) : ℤ := if q < 0 then rat_ceil q else rat_floor q

/-- Python `round` / format-spec rounding on an exact value:
round half to even. -/
def round_half_even (q : ℚ) : ℤ :=
  let f := rat_floor q
  if q - f < 1 / 2 then f
  else if q - f > 1 / 2 then f + 1
  else if f % 2 = 0 then f else f + 1

/-- Python `round(q, n)`: decimal rounding half to even, kept exact. -/
def pyround (q : ℚ) (n : ℕ) : ℚ := (round_half_even (q * 10 ^ n) : ℚ) / 10 ^ n

/-- Zero-padded two-digit rendering of `n < 100`. -/
def pad2 (n : ℕ) : String := if n < 10 then "0" ++ toString n else toString n

/-- Python `f"{q:.2f}"` on an exact nonnegative value. -/
def fmt2 (q : ℚ) : String :=
  let t := round_half_even (q * 100)
  s!"{t / 100}." ++ pad2 (t % 100).natAbs

/-- Python `f"{q:.1f}"` on an exact nonnegative value. -/
def fmt1 (q : ℚ) : String :=
  let t := round_half_even (q * 10)
  s!"{t / 10}." ++ toString (t % 10).natAbs

/-- Insert thousands separators into a reversed digit list. -/
def chunk3 : List Char → List Char
  | a :: b :: c :: d :: rest => a :: b :: c :: ',' :: chunk3 (d :: rest)
  | l => l

/-- Python `f"{n:,}"` grouping for an integer. -/
def comma_group (n : ℤ) : String :=
  let s := String.mk ((chunk3 (toString n.natAbs).toList.reverse).reverse)
  if n < 0 then "-" ++ s else s

/-- Source `fmt_usd` (source lines 100–107). -/
def fmt_usd (x : ℚ) : String :=
  if x ≥ 1000000000 then "$" ++ fmt2 (x / 1000000000) ++ "B"
  else if x ≥ 1000000 then "$" ++ fmt2 (x / 1000000) ++ "M"
  else if x ≥ 1000 then "$" ++ toString (round_half_even (x / 1000)) ++ "K"
  else "$" ++ comma_group (round_half_even x)

/-- Source `secs_to_label` (source lines 109–110). -/
def secs_to_label (secs : ℚ) : String :=
  if secs < 90 then s!"{int_trunc secs}s" else fmt1 (secs / 60) ++ "m"

/-- The process-wide runtime state (source lines 74–76): `op_cache` maps an
opportunity key to its trail of `(timestamp, profit)` samples,
`lifetime_history` maps a key to its completed lifetime durations, and
`last_seen_keys` is the previous scan's key set. -/
structure TrackerState where
  opCache : List (String × List (ℚ × ℚ))
  lifetimeHistory : List (String × List ℚ)
  lastSeen : List String
deriving DecidableEq

/-- The state at process start: all three maps empty. -/
def trackerInit : TrackerState := ⟨[], [], []⟩

/-- Source `update_lifetime_for_disappeared` (source lines 112–121): for every key
seen last scan but absent from `currentKeys`, append its trail's
last-minus-first duration to the key's lifetime history when positive, then
replace the last-seen set.  The trail itself is left in `opCache` untouched,
exactly as in the source. -/
def update_lifetime_for_disappeared (currentKeys : List String)
    (st : TrackerState) : TrackerState :=
  let gone := st.lastSeen.filter (fun k => k ∉ currentKeys)
  let hist := gone.foldl (fun h key =>
    let trail := (dget st.opCache key).getD []
    match trail with
    | [] => h
    | s :: rest =>
      let duration := ((s :: rest).getLastD (0, 0)).1 - s.1
      if 0 < duration then dinsert h key (((dget h key).getD []) ++ [duration])
      else h) st.lifetimeHistory
  { st with lifetimeHistory := hist, lastSeen := currentKeys }

/-- Source `stability_and_expiry` (source lines 123–140): record one observation of
`key` at time `now`, returning the (stability, expiry) labels and the updated
state.  A key with an empty (or absent) trail starts a fresh trail and
reports ("⏳ new", "\~unknown"); otherwise the sample is appended, the stored
trail truncated to its most recent 30 samples, and the duration is measured
on the untruncated trail, exactly as in the source. -/
def stability_and_expiry (now : ℚ) (key : String) (currentProfit : ℚ)
    (st : TrackerState) : (String × String) × TrackerState :=
  let trail := (dget st.opCache key).getD []
  match trail with
  | [] =>
    (("⏳ new", "\\~unknown"),
     { st with opCache := dinsert st.opCache key [(now, currentProfit)] })
  | s :: rest =>
    let trail2 := (s :: rest) ++ [(now, currentProfit)]
    let stored := trail2.drop (trail2.length - 30)
    let duration := (trail2.getLastD (0, 0)).1 - s.1
    let observed := "⏳ " ++ secs_to_label duration ++ " observed"
    let hist := (dget st.lifetimeHistory key).getD []
    let expiry :=
      match hist with
      | [] => "\\~unknown"
      | _ :: _ =>
        let avg := hist.sum / (hist.length : ℚ)
        let remaining := avg - duration
        if remaining ≤ 0 then "⚠️ past avg"
        else "\\~" ++ secs_to_label remaining ++ " left"
    ((observed, expiry), { st with opCache := dinsert st.opCache key stored })

/-- Source `INFO_VOLUME_CANDIDATES` (source lines 142–146). -/
def INFO_VOLUME_CANDIDATES : List String :=
  ["quoteVolume", "baseVolume", "vol", "vol24h", "volCcy24h", "volValue",
   "turnover", "turnover24h", "quoteVolume24h", "amount", "value",
   "acc_trade_price_24h", "quote_volume_24h", "base_volume_24h"]

/-- The raw-payload scan of `safe_usd_volume` (source lines 160–169): the
first candidate field whose value is present, parses, and is positive. -/
def first_info_volume (info : List (String × Option ℚ)) : Option ℚ :=
  (INFO_VOLUME_CANDIDATES.filterMap (fun k =>
    match dget info k with
    | some (some v) => if 0 < v then some v else none
    | _ => none)).head?

/-- The conversion-ticker lookup of `safe_usd_volume` (source lines 173–177
and 180–184, two verbatim copies in the source): the price of the first
same-exchange `QUOTE/USDT`, `QUOTE/USDC`, `QUOTE/USD` ticker whose extracted
price is truthy. -/
def conv_price (qUpper : String) (allTickers : List (String × Ticker)) :
    Option ℚ :=
  ((["USDT", "USDC", "USD"]).filterMap (fun conv =>
    match market_price_from_ticker (dget allTickers (qUpper ++ "/" ++ conv)) with
    | some px => if px ≠ 0 then some px else none
    | none => none)).head?

/-- Source `safe_usd_volume` (source lines 148–188).  The source's `ex_id` parameter
is unused there and dropped here.  A missing ticker or an unparseable symbol
raises inside the source's `try` and lands in the `except: return 0.0`
branch, hence the `0` results below. -/
def safe_usd_volume (symbol : String) (ticker : Option Ticker) (price : ℚ)
    (allTickers : List (String × Ticker)) : ℚ :=
  match ticker with
  | none => 0
  | some t =>
    match parse_symbol symbol with
    | none => 0
    | some (_, quote) =>
      let qUpper := py_upper quote
      let qvol := t.quoteVolume
      let bvol := t.baseVolume
      if qUpper ∈ USD_QUOTES ∧ truthy qvol then qvol.getD 0
      else if truthy bvol ∧ price ≠ 0 then bvol.getD 0 * price
      else
        let qvolFallback : ℚ :=
          match qvol with
          | some qv =>
            if qv ≠ 0 then
              match conv_price qUpper allTickers with
              | some px => qv * px
              | none => 0
            else 0
          | none => 0
        match first_info_volume t.info with
        | some raw =>
          if qUpper ∈ USD_QUOTES then raw
          else
            match conv_price qUpper allTickers with
            | some px => raw * px
            | none => qvolFallback
        | none => qvolFallback

/-- Market metadata (spec §3): `spot`/`active` flags and the taker fee; a
`none` field is an absent dict key. -/
structure Market where
  spot : Option Bool
  active : Option Bool
  taker : Option ℚ
deriving DecidableEq

/-- A `\w` character, as matched by the regex word boundary `\b`. -/
def isWordChar (c : Char) : Bool := c.isAlphanum || c = '_'

/-- There is no word character right after the match (the closing `\b`). -/
def boundaryAfter : List Char → Bool
  | [] => true
  | c :: _ => ¬ isWordChar c

/-- Match a literal keyword as a prefix, returning the rest. -/
def matchKeyword : List Char → List Char → Option (List Char)
  | [], rest => some rest
  | _ :: _, [] => none
  | k :: ks, c :: cs => if c = k then matchKeyword ks cs else none

/-- After one leading digit: consume further digits, then `L` or `S`, then a
word boundary (the `\d+[LS]\b` tail; `L`/`S` are not digits, so maximal-munch
digit consumption is equivalent to the regex's backtracking). -/
def matchDigitsRest : List Char → Bool
  | [] => false
  | c :: cs =>
    if c.isDigit then matchDigitsRest cs
    else (c = 'L' ∨ c = 'S') && boundaryAfter cs

/-- One of the regex alternatives `\d+[LS]|UP|DOWN|BULL|BEAR` followed by a
word boundary, matched at the head of `cs` (already upper-cased). -/
def lev_alt_at (cs : List Char) : Bool :=
  (match matchKeyword ['U', 'P'] cs with
   | some rest => boundaryAfter rest
   | none => false) ||
  (match matchKeyword ['D', 'O', 'W', 'N'] cs with
   | some rest => boundaryAfter rest
   | none => false) ||
  (match matchKeyword ['B', 'U', 'L', 'L'] cs with
   | some rest => boundaryAfter rest
   | none => false) ||
  (match matchKeyword ['B', 'E', 'A', 'R'] cs with
   | some rest => boundaryAfter rest
   | none => false) ||
  (match cs with
   | c :: rest => c.isDigit && matchDigitsRest rest
   | [] => false)

/-- Scan every position whose predecessor is a non-word character (or the
string start) for an alternative match. -/
def lev_scan : Bool → List Char → Bool
  | _, [] => false
  | prevWord, c :: cs =>
    (¬ prevWord && lev_alt_at (c :: cs)) || lev_scan (isWordChar c) cs

/-- Source `LEV_REGEX.search` (source line 59):
`re.search(r"\b(\d+[LS]|UP|DOWN|BULL|BEAR)\b", symbol, re.IGNORECASE)`,
matched case-insensitively by upper-casing the symbol first. -/
def lev_regex_search (symbol : String) : Bool :=
  lev_scan false (py_upper symbol).toList

/-- Source `symbol_ok` (source lines 190–197).  Result `some b` is the source's
boolean; `none` models `parse_symbol`'s uncaught `IndexError` escaping
`symbol_ok` (the symbol is present as a spot market but has no "/"). -/
def symbol_ok (markets : List (String × Market)) (symbol : String) :
    Option Bool :=
  match dget markets symbol with
  | none => some false
  | some m =>
    if m.spot.getD true = false then some false
    else
      match parse_symbol symbol with
      | none => none
      | some (_, quote) =>
        if py_upper quote ∉ USD_QUOTES then some false
        else if lev_regex_search symbol then some false
        else if m.active = some false then some false
        else some true

/-- Per-network capability record; the flags are the Python truthiness of
`info.get("withdraw")` / `info.get("deposit")`. -/
structure NetInfo where
  withdraw : Bool
  deposit : Bool
deriving DecidableEq

/-- One exchange's network map for one asset.  A value of `none` models a
malformed (non-dict) payload on which `info.get(...)` would raise — the
source's `except` branch. -/
abbrev Networks := List (String × Option NetInfo)

/-- Python string comparison `a < b`: lexicographic by code point. -/
def list_lt : List Char → List Char → Bool
  | [], [] => false
  | [], _ :: _ => true
  | _ :: _, [] => false
  | a :: as, b :: bs => if a < b then true else if b < a then false else list_lt as bs

/-- Python `a < b` on strings. -/
def str_lt (a b : String) : Bool := list_lt a.toList b.toList

/-- Python `sorted(l)[0]` (for nonempty `l`): the lexicographically smallest
element, computed by a fold. -/
def py_min : List String → Option String
  | [] => none
  | x :: xs => some (xs.foldl (fun a b => if str_lt b a then b else a) x)

/-- The normalized-network dict comprehension of `choose_common_chain`
(source lines 206–207): each raw key is canonicalized and mapped to the pair
(raw key, payload); later duplicates overwrite earlier ones, so values are
read with `dlookupLast`. -/
def norm_entries (nets : Networks) : List (String × (String × Option NetInfo)) :=
  nets.map (fun kv => (normalize_chain kv.1, kv))

/-- The canonicalized common network keys of two network maps (source
line 209), as a duplicate-free list. -/
def common_norm_keys (nets1 nets2 : Networks) : List String :=
  (((norm_entries nets1).map Prod.fst).dedup).filter
    (fun k => k ∈ (norm_entries nets2).map Prod.fst)

/-- The canonicalized exclusion set (source line 213): empty when the
include-all-chains override is set. -/
def exclude_norm (excludeChains : List String) (includeAllChains : Bool) :
    List String :=
  if includeAllChains then [] else excludeChains.map normalize_chain

/-- The canonicalized, exclusion-filtered priority list (source line 214):
`[normalize_chain(n) for n in LOW_FEE_CHAIN_PRIORITY if normalize_chain(n)
not in exclude_norm]`. -/
def preferred_norm (excludeChains : List String) (includeAllChains : Bool) :
    List String :=
  (LOW_FEE_CHAIN_PRIORITY.map normalize_chain).filter
    (fun p => p ∉ exclude_norm excludeChains includeAllChains)

/-- The capability-flag lookup of `choose_common_chain` (source lines
222–226): read the withdraw flag from the buy exchange's record and the
deposit flag from the sell exchange's record at the selected network; a
missing entry or malformed payload is the caught-exception path, yielding
the "❌ Unknown" sentinel. -/
def chain_flags (nets1 nets2 : Networks) (best : String) :
    String × String × String :=
  match dlookupLast (norm_entries nets1) best,
        dlookupLast (norm_entries nets2) best with
  | some (_, some i1), some (_, some i2) =>
    (best, if i1.withdraw then "✅" else "❌",
           if i2.deposit then "✅" else "❌")
  | _, _ => ("❌ Unknown", "❌", "❌")

/-- Source `choose_common_chain` (source lines 199–228) over two exchanges'
currency maps.  Returns (chain, withdraw-flag, deposit-flag) where the flags
are the source's "✅"/"❌" strings; `ex1` is the buy side, `ex2` the sell
side. -/
def choose_common_chain (cur1 cur2 : List (String × Networks)) (coin : String)
    (excludeChains : List String) (includeAllChains : Bool) :
    String × String × String :=
  let nets1 := (dget cur1 coin).getD []
  let nets2 := (dget cur2 coin).getD []
  let commonNorm := common_norm_keys nets1 nets2
  if commonNorm = [] then ("❌ No chain", "❌", "❌")
  else
    let excludeNorm := exclude_norm excludeChains includeAllChains
    let preferredNorm := preferred_norm excludeChains includeAllChains
    match preferredNorm.find? (fun p => p ∈ commonNorm) with
    | some best => chain_flags nets1 nets2 best
    | none =>
      match py_min (commonNorm.filter (fun c => c ∉ excludeNorm)) with
      | none => ("❌ No chain", "❌", "❌")
      | some best => chain_flags nets1 nets2 best

/-- One loaded exchange as `run_scan` sees it: the unified market table and
the per-asset currency network maps. -/
structure Exchange where
  markets : List (String × Market)
  currencies : List (String × Networks)
deriving DecidableEq

/-- Source `EXCHANGE_NAMES` (source lines 36–44). -/
def EXCHANGE_NAMES : List (String × String) :=
  [("binance", "Binance"), ("okx", "OKX"), ("coinbase", "Coinbase"),
   ("kraken", "Kraken"), ("bybit", "Bybit"), ("kucoin", "KuCoin"),
   ("mexc", "MEXC"), ("bitfinex", "Bitfinex"), ("bitget", "Bitget"),
   ("gateio", "Gate.io"), ("crypto_com", "Crypto.com"), ("upbit", "Upbit"),
   ("whitebit", "WhiteBIT"), ("poloniex", "Poloniex"), ("bingx", "BingX"),
   ("lbank", "LBank"), ("bitstamp", "Bitstamp"), ("gemini", "Gemini"),
   ("bitrue", "Bitrue"), ("xt", "XT"), ("huobi", "Huobi")]

/-- Display name of an exchange id: `EXCHANGE_NAMES.get(ex_id, ex_id)`. -/
def display_name (exId : String) : String :=
  (dget EXCHANGE_NAMES exId).getD exId

/-- The scan request (spec §6), with the `settings.get` defaults of source
lines 242–248 already applied by the caller. -/
structure Settings where
  buy_exchanges : List String
  sell_exchanges : List String
  min_profit : ℚ
  max_profit : ℚ
  min_24h_vol_usd : ℚ
  exclude_chains : List String
  include_all_chains : Bool
deriving DecidableEq

/-- Default settings values (source lines 244–248). -/
def defaultSettings (buy sell : List String) : Settings :=
  ⟨buy, sell, 1, 20, 100000, ["ETH"], false⟩

/-- The snapshot `run_scan` works on after its gateway loading loops (source
lines 257–277): loaded exchanges (`ex_objs`; load failures are absent) and
the bulk ticker maps (`bulk`; fetch failures are an empty map), plus the two
clocks. -/
structure ScanEnv where
  exObjs : List (String × Exchange)
  bulk : List (String × List (String × Ticker))
  nowMs : ℤ
  now : ℚ
deriving DecidableEq

/-- One opportunity record (source lines 336–352).  `buyId`/`sellId` are the
raw exchange ids from which the source builds the opportunity key
`f"{sym}|{b_id}>{s_id}"`; the remaining fields are the dict entries of the
source record in order. -/
structure Opp where
  pair : String
  quote : String
  buyId : String
  sellId : String
  buyName : String
  sellName : String
  buyPrice : ℚ
  sellPrice : ℚ
  spread : ℚ
  profit : ℚ
  buyVol : String
  sellVol : String
  withdrawOk : String
  depositOk : String
  blockchain : String
  stability : String
  estExpiry : String
deriving DecidableEq

/-- The opportunity key `f"{sym}|{b_id}>{s_id}"` (source line 332), as
reconstructed from a record. -/
def opp_key (r : Opp) : String := r.pair ++ "|" ++ r.buyId ++ ">" ++ r.sellId

/-- Source `vol_score` (source lines 294–299): the combined estimated USD
volume of one symbol across both legs, with missing prices defaulted to 0. -/
def vol_score (bTk sTk : List (String × Ticker)) (sym : String) : ℚ :=
  let bt := dget bTk sym
  let st := dget sTk sym
  let pb := (market_price_from_ticker bt).getD 0
  let ps := (market_price_from_ticker st).getD 0
  safe_usd_volume sym bt pb bTk + safe_usd_volume sym st ps sTk

/-- The common symbols of two exchanges, `set(b_ex.markets) & set(s_ex.markets)`
(source line 291), as a duplicate-free list in buy-exchange order. -/
def common_symbols (bEx sEx : Exchange) : List String :=
  ((bEx.markets.map Prod.fst).dedup).filter
    (fun s => s ∈ sEx.markets.map Prod.fst)

/-- The eligibility filter
`[s for s in common if symbol_ok(b_ex, s) and symbol_ok(s_ex, s)]`
(source line 292), including Python `and` short-circuiting; `none` models an
uncaught `symbol_ok` exception aborting the scan. -/
def eligible_symbols (bm sm : List (String × Market)) :
    List String → Option (List String)
  | [] => some []
  | s :: rest =>
    match symbol_ok bm s with
    | none => none
    | some false =>
      match eligible_symbols bm sm rest with
      | none => none
      | some l => some l
    | some true =>
      match symbol_ok sm s with
      | none => none
      | some b =>
        match eligible_symbols bm sm rest with
        | none => none
        | some l => some (if b then s :: l else l)

/-- Descending stable sort by combined volume followed by truncation to the
top 1000 (source lines 300–301):
`symbols.sort(key=vol_score, reverse=True); symbols = symbols[:1000]`.
Python's `list.sort` is a stable sort; a stable sort under a fixed total
preorder has a unique result, so the structurally recursive stable
`insertionSort` used here computes it. -/
def pair_symbols (bEx sEx : Exchange) (bTk sTk : List (String × Ticker)) :
    Option (List String) :=
  match eligible_symbols bEx.markets sEx.markets (common_symbols bEx sEx) with
  | none => none
  | some eligible =>
    some ((eligible.insertionSort
      (fun a b => vol_score bTk sTk b ≤ vol_score bTk sTk a)).take 1000)

/-- The taker-fee expression `ex.markets.get(sym, {}).get("taker", 0.001)`
(source lines 315–316): the market's taker fee, defaulting to 0.1%. -/
def taker_fee (ex : Exchange) (sym : String) : ℚ :=
  match dget ex.markets sym with
  | some m => m.taker.getD (1 / 1000)
  | none => 1 / 1000

/-- The body of the per-symbol loop of `run_scan` (source lines 303–352) for
one (buy, sell, symbol) triple.  `some (none, st)` is a `continue`
(rejection, state unchanged), `some (some r, st')` emits a record after the
stability update, and the outer `none` models the uncaught exception of the
unguarded `parse_symbol(sym)` at source line 326 (unreachable for symbols
that passed `symbol_ok`). -/
def process_symbol (nowMs : ℤ) (now : ℚ) (bId sId : String) (bEx sEx : Exchange)
    (bTk sTk : List (String × Ticker)) (settings : Settings) (sym : String)
    (st : TrackerState) : Option (Option Opp × TrackerState) :=
  match dget bTk sym, dget sTk sym with
  | some bt, some st_ =>
    if ¬ is_ticker_fresh nowMs bt ∨ ¬ is_ticker_fresh nowMs st_ then
      some (none, st)
    else
      match market_price_from_ticker (some bt), market_price_from_ticker (some st_) with
      | some bp, some sp =>
        if bp = 0 ∨ sp = 0 then some (none, st)
        else if |sp - bp| / bp > 1 / 2 then some (none, st)
        else
          let bFee := taker_fee bEx sym
          let sFee := taker_fee sEx sym
          let spread := (sp - bp) / bp * 100
          let profit := spread - (bFee * 100 + sFee * 100)
          if profit < settings.min_profit ∨ profit > settings.max_profit then
            some (none, st)
          else
            let bVol := safe_usd_volume sym (some bt) bp bTk
            let sVol := safe_usd_volume sym (some st_) sp sTk
            if bVol < settings.min_24h_vol_usd ∨ sVol < settings.min_24h_vol_usd then
              some (none, st)
            else
              match parse_symbol sym with
              | none => none
              | some (base, quote) =>
                let cc := choose_common_chain bEx.currencies sEx.currencies
                  base settings.exclude_chains settings.include_all_chains
                let chain := cc.1
                let wOk := cc.2.1
                let dOk := cc.2.2
                if ¬ settings.include_all_chains ∧
                    (py_startsWith chain "❌" ∨
                     normalize_chain chain ∈
                       settings.exclude_chains.map normalize_chain) then
                  some (none, st)
                else if wOk ≠ "✅" ∨ dOk ≠ "✅" then some (none, st)
                else
                  let key := sym ++ "|" ++ bId ++ ">" ++ sId
                  let se := stability_and_expiry now key profit st
                  some (some
                    { pair := sym
                      quote := quote
                      buyId := bId
                      sellId := sId
                      buyName := display_name bId
                      sellName := display_name sId
                      buyPrice := pyround bp 10
                      sellPrice := pyround sp 10
                      spread := pyround spread 4
                      profit := pyround profit 4
                      buyVol := fmt_usd bVol
                      sellVol := fmt_usd sVol
                      withdrawOk := wOk
                      depositOk := dOk
                      blockchain := chain
                      stability := se.1.1
                      estExpiry := se.1.2 }, se.2)
      | _, _ => some (none, st)
  | _, _ => some (none, st)

/-- The body of the per-symbol loop iterated over a symbol list (source
lines 303–352), threading the tracker state and accumulating the emitted
records and opportunity keys in loop order. -/
def process_syms (nowMs : ℤ) (now : ℚ) (bId sId : String) (bEx sEx : Exchange)
    (bTk sTk : List (String × Ticker)) (settings : Settings) :
    List String → TrackerState → Option (List Opp × List String × TrackerState)
  | [], st => some ([], [], st)
  | sym :: rest, st =>
    match process_symbol nowMs now bId sId bEx sEx bTk sTk settings sym st with
    | none => none
    | some (none, st₂) => process_syms nowMs now bId sId bEx sEx bTk sTk settings rest st₂
    | some (some r, st₂) =>
      match process_syms nowMs now bId sId bEx sEx bTk sTk settings rest st₂ with
      | none => none
      | some (res, keys, st₃) => some (r :: res, opp_key r :: keys, st₃)

/-- The per-pair portion of `run_scan` (source lines 286–352): compute the
volume-sorted, truncated symbol list and run the per-symbol loop over it. -/
def process_pair (nowMs : ℤ) (now : ℚ) (bId sId : String) (bEx sEx : Exchange)
    (bTk sTk : List (String × Ticker)) (settings : Settings)
    (st : TrackerState) : Option (List Opp × List String × TrackerState) :=
  match pair_symbols bEx sEx bTk sTk with
  | none => none
  | some syms => process_syms nowMs now bId sId bEx sEx bTk sTk settings syms st

/-- The inner `for s_id in sell` loop of `run_scan` (source lines 283–352)
for a fixed buy exchange: skip the identity pair and pairs with an unloaded
exchange, otherwise run the per-pair body. -/
def run_sells (env : ScanEnv) (settings : Settings) (bId : String) :
    List String → TrackerState → Option (List Opp × List String × TrackerState)
  | [], st => some ([], [], st)
  | sId :: rest, st =>
    if bId = sId then run_sells env settings bId rest st
    else
      match dget env.exObjs bId, dget env.exObjs sId with
      | some bEx, some sEx =>
        match process_pair env.nowMs env.now bId sId bEx sEx
            ((dget env.bulk bId).getD []) ((dget env.bulk sId).getD [])
            settings st with
        | none => none
        | some (r₁, k₁, st₂) =>
          match run_sells env settings bId rest st₂ with
          | none => none
          | some (res, keys, st₃) => some (r₁ ++ res, k₁ ++ keys, st₃)
      | _, _ => run_sells env settings bId rest st

/-- The outer `for b_id in buy` loop of `run_scan` (source line 282). -/
def run_buys (env : ScanEnv) (settings : Settings) :
    List String → TrackerState → Option (List Opp × List String × TrackerState)
  | [], st => some ([], [], st)
  | bId :: rest, st =>
    match run_sells env settings bId settings.sell_exchanges st with
    | none => none
    | some (r₁, k₁, st₁) =>
      match run_buys env settings rest st₁ with
      | none => none
      | some (res, keys, st₂) => some (r₁ ++ res, k₁ ++ keys, st₂)

/-- Source `run_scan` (source lines 241–356), over the post-gateway snapshot
`env`.  An empty buy or sell list fails the scan immediately with an empty
result (and no reconciliation); the pair `(X, X)` and pairs with an unloaded
exchange are skipped; after all pairs, the disappeared-key reconciliation
runs on the collected keys.  `none` models an uncaught exception aborting
the scan. -/
def run_scan (env : ScanEnv) (settings : Settings) (st₀ : TrackerState) :
    Option (List Opp × TrackerState) :=
  if settings.buy_exchanges.isEmpty ∨ settings.sell_exchanges.isEmpty then
    some ([], st₀)
  else
    match run_buys env settings settings.buy_exchanges st₀ with
    | none => none
    | some (res, keys, st) => some (res, update_lifetime_for_disappeared keys st)

/-- A one-market exchange table: the spot USDT market "AAA/USDT" with all
optional metadata absent. -/
def demoMarkets : List (String × Market) := [("AAA/USDT", ⟨none, none, none⟩)]

/-- Asset "AAA" supports the TRC20 network with withdraw and deposit open. -/
def demoCur : List (String × Networks) := [("AAA", [("TRC20", some ⟨true, true⟩)])]

/-- The demonstration exchange used on both legs. -/
def demoEx : Exchange := ⟨demoMarkets, demoCur⟩

/-- Buy-side tickers: "AAA/USDT" last price 100, quote volume 500 000, no
timestamp. -/
def demoTkA : List (String × Ticker) :=
  [("AAA/USDT", ⟨some 100, none, none, none, some 500000, none, []⟩)]

/-- Sell-side tickers with a chosen last price `sp`. -/
def demoTkB (sp : ℚ) : List (String × Ticker) :=
  [("AAA/USDT", ⟨some sp, none, none, none, some 500000, none, []⟩)]

/-- The default scan settings for buy exchange "b1" and sell exchange "s1". -/
def demoSettings : Settings := defaultSettings ["b1"] ["s1"]

/-- A full scan snapshot around the demonstration exchanges, sell price 102. -/
def demoEnv : ScanEnv :=
  ⟨[("b1", demoEx), ("s1", demoEx)], [("b1", demoTkA), ("s1", demoTkB 102)], 0, 0⟩

/-- Buy-side currency map listing asset "XYZ" only under the network key
"BSC". -/
def c1_curBSC : List (String × Networks) := [("XYZ", [("BSC", some ⟨true, true⟩)])]

/-- Sell-side currency map listing asset "XYZ" only under the network key
"BEP20". -/
def c1_curBEP : List (String × Networks) := [("XYZ", [("BEP20", some ⟨true, true⟩)])]

/-- Scan 1 at `t = 0`: key "K" observed for the first time. -/
def c2_obs1 := stability_and_expiry 0 "K" 2 trackerInit

/-- End of scan 1: key "K" present. -/
def c2_scan1 := update_lifetime_for_disappeared ["K"] c2_obs1.2

/-- Scan 2 at `t = 50`: key "K" observed again. -/
def c2_obs2 := stability_and_expiry 50 "K" 2 c2_scan1

/-- End of scan 2: key "K" still present. -/
def c2_scan2 := update_lifetime_for_disappeared ["K"] c2_obs2.2

/-- End of scan 3 at `t = 60`: key "K" has disappeared, closing a 50-second
lifetime — the key's only historical sample. -/
def c2_scan3 := update_lifetime_for_disappeared [] c2_scan2

/-- Scan 4 at `t = 100`: key "K" reappears. -/
def c2_reobs1 := stability_and_expiry 100 "K" 2 c2_scan3

/-- Scan 5 at `t = 110`: the reappeared key has now been back for 10 s. -/
def c2_reobs2 := stability_and_expiry 110 "K" 2 c2_reobs1.2

/-- A stale sell-side ticker map: timestamp 0 while the scan clock reads
300 001 ms. -/
def demoTkStale : List (String × Ticker) :=
  [("AAA/USDT", ⟨some 102, none, none, some 0, some 500000, none, []⟩)]

/-- The record emitted for the demonstration pair at sell price 102. -/
def demoRec102 : Opp :=
  ⟨"AAA/USDT", "USDT", "b1", "s1", "b1", "s1", 100, 102, 2, 9/5,
   "$500K", "$500K", "✅", "✅", "TRON", "⏳ new", "\\~unknown"⟩

/-- The tracker state after emitting `demoRec102`. -/
def demoSt102 : TrackerState := ⟨[("AAA/USDT|b1>s1", [(0, 9/5)])], [], []⟩

/-- The record emitted at the boundary sell price 101.2 (profit exactly the
1 % minimum). -/
def demoRec1012 : Opp :=
  ⟨"AAA/USDT", "USDT", "b1", "s1", "b1", "s1", 100, 506/5, 6/5, 1,
   "$500K", "$500K", "✅", "✅", "TRON", "⏳ new", "\\~unknown"⟩

/-- The tracker state after emitting `demoRec1012`. -/
def demoSt1012 : TrackerState := ⟨[("AAA/USDT|b1>s1", [(0, 1)])], [], []⟩

/-- A buy-side ticker whose last trade price is 0. -/
def demoTkZero : List (String × Ticker) :=
  [("AAA/USDT", ⟨some 0, none, none, none, some 500000, none, []⟩)]

/-- The element `x` is the first member of `l` satisfying `q`. -/
def IsFirstSatisfying (q : String → Bool) (l : List String) (x : String) :
    Prop :=
  ∃ l₁ l₂, l = l₁ ++ x :: l₂ ∧ q x = true ∧ ∀ y ∈ l₁, q y = false

/-- A currency map listing asset "XYZ" under the network keys "BEP20" and
"AAA". -/
def c6_cur : List (String × Networks) :=
  [("XYZ", [("BEP20", some ⟨true, true⟩), ("AAA", some ⟨true, true⟩)])]

/-- A currency map listing asset "XYZ" only under "TRC20" (tier a hits its
normalized form "TRON"). -/
def c6_curTRC : List (String × Networks) :=
  [("XYZ", [("TRC20", some ⟨true, true⟩)])]

/-- A currency map listing asset "XYZ" under the non-priority networks
"QQQ" and "ZZZ" (exercises the lexicographic fallback). -/
def c6_curQZ : List (String × Networks) :=
  [("XYZ", [("ZZZ", some ⟨true, false⟩), ("QQQ", some ⟨false, true⟩)])]

/-- The tracker state after the demonstration scan ends and the
disappeared-key reconciliation runs on the single collected key. -/
def demoFinalSt : TrackerState :=
  ⟨[("AAA/USDT|b1>s1", [(0, 9/5)])], [], ["AAA/USDT|b1>s1"]⟩

/-! ### Concrete demonstration inputs shared by several witnesses -/

/-! ### C1 — chain-alias canonicalization -/

/-- C1: the claim fails on the code.  `normalize_chain` is the involution of
the swap table `CHAIN_ALIASES`, not an idempotent canonicalization: applying
it twice to "BSC" does not agree with applying it once, and an asset listed
under "BSC" on one exchange and under "BEP20" on the other canonicalizes to
the *disjoint* keys "BEP20" and "BSC", so the common-network set is empty
and network selection reports "❌ No chain" instead of treating the two
names as the same chain. -/
theorem c1_chain_alias_code_bug :
    normalize_chain "BSC" = "BEP20" ∧
    normalize_chain "BEP20" = "BSC" ∧
    normalize_chain (normalize_chain "BSC") ≠ normalize_chain "BSC" ∧
    common_norm_keys ((c1_curBSC.lookup "XYZ").getD [])
      ((c1_curBEP.lookup "XYZ").getD []) = [] ∧
    choose_common_chain c1_curBSC c1_curBEP "XYZ" [] true =
      ("❌ No chain", "❌", "❌") := by
  decide

/-! ### C2 — reappearance after expiry -/

/-- C2: the claim fails on the code.  `update_lifetime_for_disappeared`
records the 50-second lifetime but never clears the key's trail from
`op_cache`, so a reappearance does *not* start a fresh trail: the first
re-observation reports an "observed" status (not "⏳ new" / "\~unknown"),
its duration is measured from the long-gone first sample (spanning the
disappearance gap), and after 10 s of reappearance the expiry reads
"⚠️ past avg" instead of the claimed "~40s left". -/
theorem c2_reappearance_code_bug :
    c2_scan3.lifetimeHistory.lookup "K" = some [50] ∧
    c2_scan3.opCache.lookup "K" = some [(0, 2), (50, 2)] ∧
    c2_reobs1.1 ≠ ("⏳ new", "\\~unknown") ∧
    c2_reobs1.1.2 = "⚠️ past avg" ∧
    c2_reobs2.1.2 = "⚠️ past avg" ∧
    c2_reobs2.1.2 ≠ "\\~40s left" := by
  with_unfolding_all decide

/-! ### C3 — symbol parsing and the malformed-symbol guard -/

/-- Splitting a list that does not contain the separator yields the single
chunk. -/
lemma splitOnChar_of_not_mem {sep : Char} {cs : List Char} (h : sep ∉ cs) :
    splitOnChar sep cs = [cs] := by
  induction cs with
  | nil => rfl
  | cons c cs ih =>
    simp only [List.mem_cons, not_or] at h
    have hc : ¬ c = sep := fun e => h.1 e.symm
    simp [splitOnChar, hc, ih h.2]

/-- Splitting peels off a separator-free prefix as the first chunk. -/
lemma splitOnChar_append {sep : Char} {cs : List Char} (ds : List Char)
    (h : sep ∉ cs) :
    splitOnChar sep (cs ++ sep :: ds) = cs :: splitOnChar sep ds := by
  induction cs with
  | nil => simp [splitOnChar]
  | cons c cs ih =>
    simp only [List.mem_cons, not_or] at h
    have hc : ¬ c = sep := fun e => h.1 e.symm
    simp [splitOnChar, hc, ih h.2]

/-- C3 (amended): for every well-formed symbol "BASE/QUOTE" or
"BASE/QUOTE:SETTLE" (no "/" in the parts, no ":" in the quote),
`parse_symbol` returns (BASE, QUOTE) with the settlement suffix stripped;
and `symbol_ok` does not crash on a malformed symbol *that the market-table
guard catches*: a symbol absent from the exchange's market table, or one
whose market is explicitly non-spot, makes `symbol_ok` return `some false`
before `parse_symbol` ever runs.  (A malformed symbol listed as a spot
market is *not* guarded — see the counterexample.) -/
theorem c3_parse_and_guard :
    (∀ base quote : String, '/' ∉ base.toList → '/' ∉ quote.toList →
      ':' ∉ quote.toList →
      parse_symbol (base ++ "/" ++ quote) = some (base, quote)) ∧
    (∀ base quote settle : String, '/' ∉ base.toList → '/' ∉ quote.toList →
      ':' ∉ quote.toList → '/' ∉ settle.toList →
      parse_symbol (base ++ "/" ++ quote ++ ":" ++ settle) = some (base, quote)) ∧
    (∀ (markets : List (String × Market)) (symbol : String),
      dget markets symbol = none → symbol_ok markets symbol = some false) ∧
    (∀ (markets : List (String × Market)) (symbol : String) (m : Market),
      dget markets symbol = some m → m.spot = some false →
      symbol_ok markets symbol = some false) := by
  refine ⟨?_, ?_, ?_, ?_⟩
  · intro base quote hb hq hqc
    obtain ⟨bl⟩ := base
    obtain ⟨ql⟩ := quote
    have hdata : (String.mk bl ++ "/" ++ String.mk ql).toList = bl ++ '/' :: ql := by
      simp [String.toList, String.data_append]
    have hb' : '/' ∉ bl := hb
    have hq' : '/' ∉ ql := hq
    have hqc' : ':' ∉ ql := hqc
    unfold parse_symbol
    rw [hdata, splitOnChar_append ql hb', splitOnChar_of_not_mem hq']
    simp [splitOnChar_of_not_mem hqc']
  · intro base quote settle hb hq hqc hs
    obtain ⟨bl⟩ := base
    obtain ⟨ql⟩ := quote
    obtain ⟨sl⟩ := settle
    have hdata :
        (String.mk bl ++ "/" ++ String.mk ql ++ ":" ++ String.mk sl).toList =
          bl ++ '/' :: (ql ++ ':' :: sl) := by
      simp [String.toList, String.data_append]
    have hq2 : '/' ∉ ql ++ ':' :: sl := by
      simp only [List.mem_append, List.mem_cons, not_or]
      exact ⟨hq, by decide, hs⟩
    have hb' : '/' ∉ bl := hb
    have hqc' : ':' ∉ ql := hqc
    unfold parse_symbol
    rw [hdata, splitOnChar_append (ql ++ ':' :: sl) hb',
      splitOnChar_of_not_mem hq2]
    simp [splitOnChar_append sl hqc']
  · intro markets symbol h
    unfold symbol_ok
    rw [h]
  · intro markets symbol m h hspot
    unfold symbol_ok
    rw [h]
    simp [hspot]

/-- C3 (counterexample): the original claim's malformed-symbol safety fails
on the code.  "BTCUSDT" contains no "/", yet when it is present in the
market table as a spot market, `symbol_ok` reaches the unguarded
`parse_symbol` call, whose `IndexError` escapes (`none`). -/
theorem c3_symbol_ok_crash :
    ('/' ∈ "BTCUSDT".toList → False) ∧
    symbol_ok [("BTCUSDT", ⟨some true, none, none⟩)] "BTCUSDT" = none := by
  decide

/-- C3 witness: the amended theorem applied at concrete inputs. -/
theorem c3_parse_and_guard_witness :
    parse_symbol ("BTC" ++ "/" ++ "USDT") = some ("BTC", "USDT") ∧
    parse_symbol ("ETH" ++ "/" ++ "USD" ++ ":" ++ "USD") = some ("ETH", "USD") ∧
    symbol_ok [] "ZZZ" = some false ∧
    symbol_ok [("FOO", ⟨some false, none, none⟩)] "FOO" = some false :=
  ⟨c3_parse_and_guard.1 "BTC" "USDT" (by decide) (by decide) (by decide),
   c3_parse_and_guard.2.1 "ETH" "USD" "USD" (by decide) (by decide) (by decide)
     (by decide),
   c3_parse_and_guard.2.2.1 [] "ZZZ" rfl,
   c3_parse_and_guard.2.2.2 [("FOO", ⟨some false, none, none⟩)] "FOO"
     ⟨some false, none, none⟩ (by decide) rfl⟩

/-! ### C5 — USD volume estimation -/

/-- C5: `safe_usd_volume` is total by construction and follows the claimed
fallback order.  Generally: a USD-equivalent quote with a truthy
quote-volume returns it directly, and otherwise a truthy base-volume times a
truthy price is used, whatever the raw payload holds.  Concretely, down the
chain: quote "USDT" with quoteVolume 500 000 gives exactly 500 000; quote
"BTC" with baseVolume 10 and price 60 000 gives 600 000; a raw-payload
volume 7 converts through the same-exchange BTC/USDT ticker (420 000), with
USDT tried before USDC (7·2 = 14, not 7·3); a non-USD quote-volume 5
converts the same way (300 000); a missing ticker and a conversion with no
ticker available both fall through to 0. -/
theorem c5_safe_usd_volume :
    (∀ (t : Ticker) (v price : ℚ) (allTickers : List (String × Ticker)),
      t.quoteVolume = some v → v ≠ 0 →
      safe_usd_volume "AAA/USDT" (some t) price allTickers = v) ∧
    (∀ (t : Ticker) (v price : ℚ) (allTickers : List (String × Ticker)),
      t.quoteVolume = none → t.baseVolume = some v → v ≠ 0 → price ≠ 0 →
      safe_usd_volume "AAA/BTC" (some t) price allTickers = v * price) ∧
    safe_usd_volume "AAA/USDT"
      (some ⟨some 100, none, none, none, some 500000, none, []⟩) 100 [] =
      500000 ∧
    safe_usd_volume "AAA/BTC"
      (some ⟨some 60000, none, none, none, none, some 10, []⟩) 60000 [] =
      600000 ∧
    safe_usd_volume "AAA/BTC"
      (some ⟨none, none, none, none, none, none, [("vol", some 7)]⟩) 0
      [("BTC/USDT", ⟨some 60000, none, none, none, none, none, []⟩)] =
      420000 ∧
    safe_usd_volume "AAA/BTC"
      (some ⟨none, none, none, none, none, none, [("vol", some 7)]⟩) 0
      [("BTC/USDC", ⟨some 3, none, none, none, none, none, []⟩),
       ("BTC/USDT", ⟨some 2, none, none, none, none, none, []⟩)] = 14 ∧
    safe_usd_volume "AAA/BTC"
      (some ⟨none, none, none, none, some 5, none, []⟩) 0
      [("BTC/USDT", ⟨some 60000, none, none, none, none, none, []⟩)] =
      300000 ∧
    (∀ (sym : String) (price : ℚ) (allTickers : List (String × Ticker)),
      safe_usd_volume sym none price allTickers = 0) ∧
    safe_usd_volume "AAA/BTC"
      (some ⟨none, none, none, none, some 5, none, []⟩) 0 [] = 0 := by
  have hp1 : parse_symbol "AAA/USDT" = some ("AAA", "USDT") := by decide
  have hp2 : parse_symbol "AAA/BTC" = some ("AAA", "BTC") := by decide
  have hu1 : py_upper "USDT" = "USDT" := by decide
  have hu2 : py_upper "BTC" = "BTC" := by decide
  refine ⟨?_, ?_, ?_, ?_, ?_, ?_, ?_, fun _ _ _ => rfl, ?_⟩
  · intro t v price allT hqv hv
    unfold safe_usd_volume
    rw [hp1]
    simp only [hqv, hu1]
    rw [if_pos ⟨by decide, by simp [truthy, hv]⟩]
    rfl
  · intro t v price allT hqv hbv hv hp
    unfold safe_usd_volume
    rw [hp2]
    simp only [hqv, hbv, hu2]
    rw [if_neg (by rintro ⟨h, -⟩; revert h; decide)]
    rw [if_pos ⟨by simp [truthy, hv], hp⟩]
    rfl
  · norm_num +decide [safe_usd_volume, hp1, hu1, truthy]
  · norm_num +decide [safe_usd_volume, hp2, hu2, truthy]
  · norm_num +decide [safe_usd_volume, hp2, hu2, truthy, first_info_volume,
      INFO_VOLUME_CANDIDATES, dget, conv_price, market_price_from_ticker]
  · norm_num +decide [safe_usd_volume, hp2, hu2, truthy, first_info_volume,
      INFO_VOLUME_CANDIDATES, dget, conv_price, market_price_from_ticker]
  · norm_num +decide [safe_usd_volume, hp2, hu2, truthy, first_info_volume,
      INFO_VOLUME_CANDIDATES, dget, conv_price, market_price_from_ticker]
  · norm_num +decide [safe_usd_volume, hp2, hu2, truthy, first_info_volume,
      INFO_VOLUME_CANDIDATES, dget, conv_price, market_price_from_ticker]

/-- C5 witness: the general fallback clauses applied at concrete inputs. -/
theorem c5_safe_usd_volume_witness :
    safe_usd_volume "AAA/USDT"
      (some ⟨none, some 1, some 3, none, some 777, none, []⟩) 2 [] = 777 ∧
    safe_usd_volume "AAA/BTC"
      (some ⟨none, none, none, none, none, some 4, []⟩) 3 [] = 4 * 3 ∧
    safe_usd_volume "ZZZ" none 5 [] = 0 :=
  ⟨c5_safe_usd_volume.1 ⟨none, some 1, some 3, none, some 777, none, []⟩ 777 2 []
     rfl (by norm_num),
   c5_safe_usd_volume.2.1 ⟨none, none, none, none, none, some 4, []⟩ 4 3 []
     rfl rfl (by norm_num) (by norm_num),
   c5_safe_usd_volume.2.2.2.2.2.2.2.1 "ZZZ" 5 []⟩

/-! ### C7 — ticker freshness filtering -/

/-- C7: a ticker with no timestamp is always fresh; age exactly 300 s is
still fresh; age beyond 300 s is stale; and a triple whose buy- or sell-side
ticker is missing or stale is rejected by the per-symbol scorer with no
record and unchanged tracker state, regardless of prices, fees, profit or
volumes. -/
theorem c7_staleness_filter :
    (∀ (nowMs : ℤ) (t : Ticker), t.timestamp = none →
      is_ticker_fresh nowMs t = true) ∧
    (∀ (nowMs ts : ℤ) (t : Ticker), t.timestamp = some ts →
      nowMs - ts = 300 * 1000 → is_ticker_fresh nowMs t = true) ∧
    (∀ (nowMs ts : ℤ) (t : Ticker), t.timestamp = some ts →
      300 * 1000 < nowMs - ts → is_ticker_fresh nowMs t = false) ∧
    (∀ (nowMs : ℤ) (now : ℚ) (bId sId : String) (bEx sEx : Exchange)
      (bTk sTk : List (String × Ticker)) (settings : Settings) (sym : String)
      (st : TrackerState),
      (dget bTk sym = none ∨ dget sTk sym = none ∨
       (∃ bt, dget bTk sym = some bt ∧ is_ticker_fresh nowMs bt = false) ∨
       (∃ st₁, dget sTk sym = some st₁ ∧ is_ticker_fresh nowMs st₁ = false)) →
      process_symbol nowMs now bId sId bEx sEx bTk sTk settings sym st =
        some (none, st)) := by
  refine ⟨?_, ?_, ?_, ?_⟩
  · intro nowMs t h
    simp [is_ticker_fresh, h]
  · intro nowMs ts t h h₂
    simp only [is_ticker_fresh, h, decide_eq_true_eq]
    omega
  · intro nowMs ts t h h₂
    simp only [is_ticker_fresh, h, decide_eq_false_iff_not]
    omega
  · intro nowMs now bId sId bEx sEx bTk sTk settings sym st h
    unfold process_symbol
    rcases h with h | h | ⟨bt, hbt, hfr⟩ | ⟨st₁, hst, hfr⟩
    · rw [h]
    · rw [h]
      cases dget bTk sym <;> rfl
    · rw [hbt]
      cases hst : dget sTk sym with
      | none => rfl
      | some st₂ => simp [hfr]
    · rw [hst]
      cases hbt : dget bTk sym with
      | none => rfl
      | some bt₂ => simp [hfr]

/-- C7 witness: the freshness clauses applied at concrete inputs. -/
theorem c7_staleness_filter_witness :
    is_ticker_fresh 300001 ⟨some 102, none, none, some 0, some 500000, none, []⟩
      = false ∧
    is_ticker_fresh 300000 ⟨some 102, none, none, some 0, some 500000, none, []⟩
      = true ∧
    is_ticker_fresh 0 ⟨some 100, none, none, none, some 500000, none, []⟩
      = true ∧
    process_symbol 300001 0 "b1" "s1" demoEx demoEx demoTkA demoTkStale
      demoSettings "AAA/USDT" trackerInit = some (none, trackerInit) :=
  ⟨c7_staleness_filter.2.2.1 300001 0
     ⟨some 102, none, none, some 0, some 500000, none, []⟩ rfl (by norm_num),
   c7_staleness_filter.2.1 300000 0
     ⟨some 102, none, none, some 0, some 500000, none, []⟩ rfl (by norm_num),
   c7_staleness_filter.1 0 ⟨some 100, none, none, none, some 500000, none, []⟩
     rfl,
   c7_staleness_filter.2.2.2 300001 0 "b1" "s1" demoEx demoEx demoTkA
     demoTkStale demoSettings "AAA/USDT" trackerInit
     (Or.inr (Or.inr (Or.inr ⟨⟨some 102, none, none, some 0, some 500000, none,
       []⟩, rfl, by norm_num [is_ticker_fresh]⟩)))⟩

/-! ### C4 — spread/profit formulas and the inclusive profit range -/

/-- Evaluation of the per-symbol scorer on the demonstration inputs at sell
price 102: spread 2 %, profit 1.8 %, record emitted. -/
lemma demo_eval_102 :
    process_symbol 0 0 "b1" "s1" demoEx demoEx demoTkA (demoTkB 102)
      demoSettings "AAA/USDT" trackerInit = some (some demoRec102, demoSt102) := by
  norm_num +decide [process_symbol, demoEx, demoMarkets, demoCur, demoTkA,
    demoTkB, demoSettings, defaultSettings, demoRec102, demoSt102, dget,
    is_ticker_fresh, market_price_from_ticker, taker_fee, safe_usd_volume,
    parse_symbol, splitOnChar, truthy, py_upper, first_info_volume,
    INFO_VOLUME_CANDIDATES, conv_price, choose_common_chain, chain_flags, py_min, str_lt, list_lt, common_norm_keys,
    norm_entries, normalize_chain, py_strip, exclude_norm, preferred_norm,
    LOW_FEE_CHAIN_PRIORITY, CHAIN_ALIASES, dlookupLast, py_startsWith,
    list_isPrefix, stability_and_expiry, dinsert, trackerInit, fmt_usd, fmt2,
    round_half_even, rat_floor, pyround, comma_group, chunk3, pad2,
    display_name, EXCHANGE_NAMES, secs_to_label, int_trunc, rat_ceil, fmt1]

/-- Evaluation at sell price 101.2: profit exactly equal to the 1 % minimum
still emits a record. -/
lemma demo_eval_boundary :
    process_symbol 0 0 "b1" "s1" demoEx demoEx demoTkA (demoTkB (506/5))
      demoSettings "AAA/USDT" trackerInit =
      some (some demoRec1012, demoSt1012) := by
  norm_num +decide [process_symbol,
    (abs_of_nonneg (by norm_num : (0:ℚ) ≤ 6/5) : |(6:ℚ)/5| = 6/5),
    demoEx, demoMarkets, demoCur, demoTkA,
    demoTkB, demoSettings, defaultSettings, demoRec1012, demoSt1012, dget,
    is_ticker_fresh, market_price_from_ticker, taker_fee, safe_usd_volume,
    parse_symbol, splitOnChar, truthy, py_upper, first_info_volume,
    INFO_VOLUME_CANDIDATES, conv_price, choose_common_chain, chain_flags, py_min, str_lt, list_lt, common_norm_keys,
    norm_entries, normalize_chain, py_strip, exclude_norm, preferred_norm,
    LOW_FEE_CHAIN_PRIORITY, CHAIN_ALIASES, dlookupLast, py_startsWith,
    list_isPrefix, stability_and_expiry, dinsert, trackerInit, fmt_usd, fmt2,
    round_half_even, rat_floor, pyround, comma_group, chunk3, pad2,
    display_name, EXCHANGE_NAMES, secs_to_label, int_trunc, rat_ceil, fmt1]

/-- Evaluation at sell price 101.1: profit 0.9 % is below the 1 % minimum
and the triple is rejected. -/
lemma demo_eval_below :
    process_symbol 0 0 "b1" "s1" demoEx demoEx demoTkA (demoTkB (1011/10))
      demoSettings "AAA/USDT" trackerInit = some (none, trackerInit) := by
  norm_num +decide [process_symbol, demoEx, demoMarkets, demoCur, demoTkA,
    demoTkB, demoSettings, defaultSettings, dget, is_ticker_fresh,
    market_price_from_ticker, taker_fee, safe_usd_volume, parse_symbol,
    splitOnChar, truthy, py_upper, first_info_volume, INFO_VOLUME_CANDIDATES,
    conv_price]

/-- Evaluation at sell price 130: profit 29.8 % exceeds the 20 % maximum and
the triple is rejected. -/
lemma demo_eval_above :
    process_symbol 0 0 "b1" "s1" demoEx demoEx demoTkA (demoTkB 130)
      demoSettings "AAA/USDT" trackerInit = some (none, trackerInit) := by
  norm_num +decide [process_symbol, demoEx, demoMarkets, demoCur, demoTkA,
    demoTkB, demoSettings, defaultSettings, dget, is_ticker_fresh,
    market_price_from_ticker, taker_fee, safe_usd_volume, parse_symbol,
    splitOnChar, truthy, py_upper, first_info_volume, INFO_VOLUME_CANDIDATES,
    conv_price]

/-- C4: whenever the per-symbol scorer emits a record, the record's spread
is `round((sell − buy) / buy · 100, 4)`, its profit is the spread minus both
sides' taker fees in percent (each defaulting to 0.1 %), and the *unrounded*
profit lies in the inclusive range `[min_profit, max_profit]`.  Concretely:
buy 100 / sell 102 with default fees gives spread 2 and profit 1.8; profit
exactly equal to `min_profit` passes (sell 101.2 emits with profit = 1 =
min); profit below the minimum (sell 101.1) or above the maximum (sell 130)
is rejected. -/
theorem c4_profit_formula_and_range :
    (∀ (nowMs : ℤ) (now : ℚ) (bId sId : String) (bEx sEx : Exchange)
      (bTk sTk : List (String × Ticker)) (settings : Settings) (sym : String)
      (st : TrackerState) (r : Opp) (st₂ : TrackerState),
      process_symbol nowMs now bId sId bEx sEx bTk sTk settings sym st =
        some (some r, st₂) →
      ∃ bt st₁ bp sp,
        dget bTk sym = some bt ∧ dget sTk sym = some st₁ ∧
        market_price_from_ticker (some bt) = some bp ∧
        market_price_from_ticker (some st₁) = some sp ∧
        r.spread = pyround ((sp - bp) / bp * 100) 4 ∧
        r.profit = pyround ((sp - bp) / bp * 100 -
          (taker_fee bEx sym * 100 + taker_fee sEx sym * 100)) 4 ∧
        settings.min_profit ≤ (sp - bp) / bp * 100 -
          (taker_fee bEx sym * 100 + taker_fee sEx sym * 100) ∧
        (sp - bp) / bp * 100 -
          (taker_fee bEx sym * 100 + taker_fee sEx sym * 100) ≤
          settings.max_profit) ∧
    (process_symbol 0 0 "b1" "s1" demoEx demoEx demoTkA (demoTkB 102)
      demoSettings "AAA/USDT" trackerInit = some (some demoRec102, demoSt102) ∧
      demoRec102.spread = 2 ∧ demoRec102.profit = 9/5) ∧
    (process_symbol 0 0 "b1" "s1" demoEx demoEx demoTkA (demoTkB (506/5))
      demoSettings "AAA/USDT" trackerInit = some (some demoRec1012, demoSt1012) ∧
      demoRec1012.profit = demoSettings.min_profit) ∧
    process_symbol 0 0 "b1" "s1" demoEx demoEx demoTkA (demoTkB (1011/10))
      demoSettings "AAA/USDT" trackerInit = some (none, trackerInit) ∧
    process_symbol 0 0 "b1" "s1" demoEx demoEx demoTkA (demoTkB 130)
      demoSettings "AAA/USDT" trackerInit = some (none, trackerInit) := by
  refine ⟨?_, ⟨demo_eval_102, rfl, rfl⟩, ⟨demo_eval_boundary, by norm_num
    [demoRec1012, demoSettings, defaultSettings]⟩, demo_eval_below,
    demo_eval_above⟩
  intro nowMs now bId sId bEx sEx bTk sTk settings sym st r st₂ h
  simp only [process_symbol] at h
  split at h
  next bt st₁ heqb heqs =>
    split at h
    next hfr => exact absurd h (by simp)
    next hfr =>
      split at h
      next bp sp hbp hsp =>
        split at h
        next hz => exact absurd h (by simp)
        next hz =>
          split at h
          next hsan => exact absurd h (by simp)
          next hsan =>
            split at h
            next hrange => exact absurd h (by simp)
            next hrange =>
              split at h
              next hvol => exact absurd h (by simp)
              next hvol =>
                split at h
                next hps => exact absurd h (by simp)
                next base quote hps =>
                  split at h
                  next hch => exact absurd h (by simp)
                  next hch =>
                    split at h
                    next hwd => exact absurd h (by simp)
                    next hwd =>
                      rw [not_or] at hrange
                      simp only [Option.some.injEq, Prod.mk.injEq] at h
                      obtain ⟨hr, -⟩ := h
                      exact ⟨bt, st₁, bp, sp, heqb, heqs, hbp, hsp,
                        by rw [← hr], by rw [← hr],
                        le_of_not_lt hrange.1, le_of_not_lt hrange.2⟩
      next hmp => exact absurd h (by simp)
  next hdef => exact absurd h (by simp)

/-- C4 witness: the emission-bound clause applied at the demonstration
input. -/
theorem c4_profit_formula_and_range_witness :
    ∃ bt st₁ bp sp,
      dget demoTkA "AAA/USDT" = some bt ∧
      dget (demoTkB 102) "AAA/USDT" = some st₁ ∧
      market_price_from_ticker (some bt) = some bp ∧
      market_price_from_ticker (some st₁) = some sp ∧
      demoRec102.spread = pyround ((sp - bp) / bp * 100) 4 ∧
      demoRec102.profit = pyround ((sp - bp) / bp * 100 -
        (taker_fee demoEx "AAA/USDT" * 100 + taker_fee demoEx "AAA/USDT" * 100)) 4 ∧
      demoSettings.min_profit ≤ (sp - bp) / bp * 100 -
        (taker_fee demoEx "AAA/USDT" * 100 + taker_fee demoEx "AAA/USDT" * 100) ∧
      (sp - bp) / bp * 100 -
        (taker_fee demoEx "AAA/USDT" * 100 + taker_fee demoEx "AAA/USDT" * 100) ≤
        demoSettings.max_profit :=
  c4_profit_formula_and_range.1 0 0 "b1" "s1" demoEx demoEx demoTkA
    (demoTkB 102) demoSettings "AAA/USDT" trackerInit demoRec102 demoSt102
    demo_eval_102

/-! ### C10 — zero or missing price never reaches the spread division -/

/-- C10: an extracted price of zero is handled exactly like a missing price —
the triple is rejected before the 50 % sanity bound or the spread formula
runs — and conversely every emitted record comes from extracted buy and sell
prices that are both present and nonzero, so the divisions by the buy price
in `process_symbol` never divide by zero. -/
theorem c10_zero_price_guard :
    (∀ (nowMs : ℤ) (now : ℚ) (bId sId : String) (bEx sEx : Exchange)
      (bTk sTk : List (String × Ticker)) (settings : Settings) (sym : String)
      (st : TrackerState),
      (market_price_from_ticker (dget bTk sym) = none ∨
       market_price_from_ticker (dget bTk sym) = some 0 ∨
       market_price_from_ticker (dget sTk sym) = none ∨
       market_price_from_ticker (dget sTk sym) = some 0) →
      process_symbol nowMs now bId sId bEx sEx bTk sTk settings sym st =
        some (none, st)) ∧
    (∀ (nowMs : ℤ) (now : ℚ) (bId sId : String) (bEx sEx : Exchange)
      (bTk sTk : List (String × Ticker)) (settings : Settings) (sym : String)
      (st : TrackerState) (r : Opp) (st₂ : TrackerState),
      process_symbol nowMs now bId sId bEx sEx bTk sTk settings sym st =
        some (some r, st₂) →
      ∃ bt st₁ bp sp,
        dget bTk sym = some bt ∧ dget sTk sym = some st₁ ∧
        market_price_from_ticker (some bt) = some bp ∧
        market_price_from_ticker (some st₁) = some sp ∧
        bp ≠ 0 ∧ sp ≠ 0) := by
  constructor
  · intro nowMs now bId sId bEx sEx bTk sTk settings sym st h
    simp only [process_symbol]
    split
    next bt st₁ heqb heqs =>
      split
      next hfr => rfl
      next hfr =>
        rw [heqb, heqs] at h
        split
        next bp sp hbp hsp =>
          rcases h with h | h | h | h
          · rw [hbp] at h; cases h
          · rw [hbp] at h
            rw [if_pos (Or.inl (Option.some.inj h))]
          · rw [hsp] at h; cases h
          · rw [hsp] at h
            rw [if_pos (Or.inr (Option.some.inj h))]
        next => rfl
    next => rfl
  · intro nowMs now bId sId bEx sEx bTk sTk settings sym st r st₂ h
    simp only [process_symbol] at h
    split at h
    next bt st₁ heqb heqs =>
      split at h
      next hfr => exact absurd h (by simp)
      next hfr =>
        split at h
        next bp sp hbp hsp =>
          split at h
          next hz => exact absurd h (by simp)
          next hz =>
            rw [not_or] at hz
            exact ⟨bt, st₁, bp, sp, heqb, heqs, hbp, hsp, hz.1, hz.2⟩
        next hmp => exact absurd h (by simp)
    next hdef => exact absurd h (by simp)

/-- C10 witness: both clauses applied at concrete inputs — a zero last price
is rejected, and the emitting demonstration run has nonzero extracted
prices. -/
theorem c10_zero_price_guard_witness :
    (process_symbol 0 0 "b1" "s1" demoEx demoEx demoTkZero (demoTkB 102)
      demoSettings "AAA/USDT" trackerInit = some (none, trackerInit)) ∧
    ∃ bt st₁ bp sp,
      dget demoTkA "AAA/USDT" = some bt ∧
      dget (demoTkB 102) "AAA/USDT" = some st₁ ∧
      market_price_from_ticker (some bt) = some bp ∧
      market_price_from_ticker (some st₁) = some sp ∧
      bp ≠ 0 ∧ sp ≠ 0 :=
  ⟨c10_zero_price_guard.1 0 0 "b1" "s1" demoEx demoEx demoTkZero (demoTkB 102)
     demoSettings "AAA/USDT" trackerInit (Or.inr (Or.inl rfl)),
   c10_zero_price_guard.2 0 0 "b1" "s1" demoEx demoEx demoTkA (demoTkB 102)
     demoSettings "AAA/USDT" trackerInit demoRec102 demoSt102 demo_eval_102⟩

/-! ### C6 — settlement-network selection -/

/-- `find?` returns exactly the first satisfying element. -/
lemma find?_of_isFirst {q : String → Bool} {l : List String} {x : String}
    (h : IsFirstSatisfying q l x) : l.find? q = some x := by
  obtain ⟨l₁, l₂, rfl, hx, hl⟩ := h
  induction l₁ with
  | nil => simp [List.find?_cons_of_pos, hx]
  | cons a as ih =>
    rw [List.cons_append, List.find?_cons_of_neg _ (by simp [hl a])]
    exact ih (fun y hy => hl y (List.mem_cons_of_mem a hy))

/-- Lexicographic comparison is irreflexive. -/
lemma list_lt_irrefl (l : List Char) : list_lt l l = false := by
  induction l with
  | nil => rfl
  | cons a as ih => simp [list_lt, lt_irrefl, ih]

/-- Lexicographic comparison is transitive. -/
lemma list_lt_trans : ∀ (a b c : List Char), list_lt a b = true →
    list_lt b c = true → list_lt a c = true := by
  intro a
  induction a with
  | nil =>
    intro b c hab hbc
    cases b with
    | nil => cases hab
    | cons y bs =>
      cases c with
      | nil => cases hbc
      | cons z cs => rfl
  | cons x as ih =>
    intro b c hab hbc
    cases b with
    | nil => cases hab
    | cons y bs =>
      cases c with
      | nil => cases hbc
      | cons z cs =>
        rcases lt_trichotomy x y with hxy | hxy | hxy
        · rcases lt_trichotomy y z with hyz | hyz | hyz
          · simp [list_lt, lt_trans hxy hyz]
          · subst hyz; simp [list_lt, hxy]
          · simp [list_lt, asymm hyz, hyz] at hbc
        · subst hxy
          rcases lt_trichotomy x z with hz | hz | hz
          · simp [list_lt, hz]
          · subst hz
            simp only [list_lt, lt_irrefl, if_false] at hab hbc ⊢
            exact ih bs cs hab hbc
          · simp [list_lt, asymm hz, hz] at hbc
        · simp [list_lt, asymm hxy, hxy] at hab

/-- Two lists neither of which lexicographically precedes the other are
equal. -/
lemma list_lt_total_eq : ∀ (a b : List Char), list_lt a b = false →
    list_lt b a = false → a = b := by
  intro a
  induction a with
  | nil =>
    intro b h1 h2
    cases b with
    | nil => rfl
    | cons y bs => cases h1
  | cons x as ih =>
    intro b h1 h2
    cases b with
    | nil => cases h2
    | cons y bs =>
      rcases lt_trichotomy x y with hxy | hxy | hxy
      · simp [list_lt, hxy] at h1
      · subst hxy
        simp only [list_lt, lt_irrefl, if_false] at h1 h2
        rw [ih bs h1 h2]
      · simp [list_lt, asymm hxy, hxy] at h2

/-- String-level irreflexivity. -/
lemma str_lt_irrefl (a : String) : str_lt a a = false := list_lt_irrefl _

/-- String-level transitivity. -/
lemma str_lt_trans {a b c : String} (h1 : str_lt a b = true)
    (h2 : str_lt b c = true) : str_lt a c = true :=
  list_lt_trans _ _ _ h1 h2

/-- String-level totality: mutually non-preceding strings are equal. -/
lemma str_lt_total_eq {a b : String} (h1 : str_lt a b = false)
    (h2 : str_lt b a = false) : a = b := by
  obtain ⟨da⟩ := a
  obtain ⟨db⟩ := b
  exact congrArg String.mk (list_lt_total_eq da db h1 h2)

/-- The fold underlying `py_min` returns its seed or a list element. -/
lemma fold_min_mem : ∀ (xs : List String) (a : String),
    xs.foldl (fun a b => if str_lt b a then b else a) a = a ∨
    xs.foldl (fun a b => if str_lt b a then b else a) a ∈ xs := by
  intro xs
  induction xs with
  | nil => intro a; exact Or.inl rfl
  | cons x xs ih =>
    intro a
    simp only [List.foldl_cons]
    rcases ih (if str_lt x a then x else a) with h | h
    · rw [h]
      by_cases hx : str_lt x a = true
      · rw [if_pos hx]; exact Or.inr (List.mem_cons_self x xs)
      · rw [if_neg hx]; exact Or.inl rfl
    · exact Or.inr (List.mem_cons_of_mem x h)

/-- No input of the fold underlying `py_min` is strictly smaller than its
result. -/
lemma fold_min_not_lt : ∀ (xs : List String) (a y : String),
    (y = a ∨ y ∈ xs) →
    str_lt y (xs.foldl (fun a b => if str_lt b a then b else a) a) = false := by
  intro xs
  induction xs with
  | nil =>
    rintro a y (rfl | hy)
    · exact str_lt_irrefl y
    · cases hy
  | cons x xs ih =>
    rintro a y hy
    simp only [List.foldl_cons]
    rcases hy with hya | hy
    · rw [hya]
      by_cases hx : str_lt x a = true
      · rw [if_pos hx]
        have hxr := ih x x (Or.inl rfl)
        by_cases hres : str_lt a (xs.foldl (fun a b => if str_lt b a then b else a) x) = true
        · exact absurd (str_lt_trans hx hres) (by simp [hxr])
        · simpa using hres
      · rw [if_neg hx]
        exact ih a a (Or.inl rfl)
    · rcases List.mem_cons.mp hy with hyx | hy
      · rw [hyx]
        by_cases hx : str_lt x a = true
        · rw [if_pos hx]
          exact ih x x (Or.inl rfl)
        · rw [if_neg hx]
          have har := ih a a (Or.inl rfl)
          by_cases hres : str_lt x (xs.foldl (fun a b => if str_lt b a then b else a) a) = true
          · by_cases hax : str_lt a x = true
            · exact absurd (str_lt_trans hax hres) (by simp [har])
            · have hax₂ : a = x := str_lt_total_eq (by simpa using hax) (by simpa using hx)
              rw [← hax₂] at hres
              exact absurd hres (by simp [har])
          · simpa using hres
      · by_cases hx : str_lt x a = true
        · rw [if_pos hx]; exact ih x y (Or.inr hy)
        · rw [if_neg hx]; exact ih a y (Or.inr hy)

/-- `py_min` returns exactly the element no other member precedes. -/
lemma py_min_eq_some {l : List String} {c : String} (h1 : c ∈ l)
    (h2 : ∀ y ∈ l, str_lt y c = false) : py_min l = some c := by
  cases l with
  | nil => cases h1
  | cons x xs =>
    simp only [py_min, Option.some.injEq]
    have hmem : xs.foldl (fun a b => if str_lt b a then b else a) x ∈ x :: xs := by
      rcases fold_min_mem xs x with h | h
      · rw [h]; exact List.mem_cons_self x xs
      · exact List.mem_cons_of_mem x h
    have hn₁ : str_lt c (xs.foldl (fun a b => if str_lt b a then b else a) x) =
        false := by
      refine fold_min_not_lt xs x c ?_
      rcases List.mem_cons.mp h1 with h | h
      · exact Or.inl h
      · exact Or.inr h
    have hn₂ : str_lt (xs.foldl (fun a b => if str_lt b a then b else a) x) c =
        false := h2 _ hmem
    exact str_lt_total_eq hn₂ hn₁

/-- C6 (counterexample): the claim's tier (a) fails as stated.  With both
exchanges listing networks "BEP20" and "AAA", the canonicalized common set
is {"BSC", "AAA"}; the first member of the literal priority list
(TRC20, BSC, …) present in that set is "BSC", yet the code compares the
*normalized* priority names (TRON, BEP20, …) against the set, finds none,
and falls through to the lexicographic fallback, returning "AAA". -/
theorem c6_tier_a_counterexample :
    common_norm_keys ((dget c6_cur "XYZ").getD [])
      ((dget c6_cur "XYZ").getD []) = ["BSC", "AAA"] ∧
    LOW_FEE_CHAIN_PRIORITY.find? (fun p => decide (p ∈ ["BSC", "AAA"])) =
      some "BSC" ∧
    choose_common_chain c6_cur c6_cur "XYZ" [] false = ("AAA", "✅", "✅") := by
  decide

/-- C6 (amended): `choose_common_chain` selects, from the canonicalized
common network set, the first *alias-normalized* priority name (TRON, BEP20,
SOL, Polygon, Arbitrum, Optimism, TON, AVAX, ETH — the normalized forms of
the fixed low-fee order, minus the normalized exclusions) present in the
set; when no normalized priority name matches, the lexicographically
smallest non-excluded common network; the withdraw flag comes from the buy
exchange's record and the deposit flag from the sell exchange's record at
the selected network; a malformed network payload on either side yields the
"❌ Unknown" sentinel with both flags "❌"; and an empty common set, or one
that is entirely excluded, yields "❌ No chain" with both flags "❌". -/
theorem c6_choose_common_chain_amended :
    (∀ (cur1 cur2 : List (String × Networks)) (coin : String)
      (excl : List String) (incl : Bool) (p k₁ k₂ : String) (i1 i2 : NetInfo),
      IsFirstSatisfying
        (fun q => decide (q ∈ common_norm_keys ((dget cur1 coin).getD [])
          ((dget cur2 coin).getD []))) (preferred_norm excl incl) p →
      dlookupLast (norm_entries ((dget cur1 coin).getD [])) p =
        some (k₁, some i1) →
      dlookupLast (norm_entries ((dget cur2 coin).getD [])) p =
        some (k₂, some i2) →
      choose_common_chain cur1 cur2 coin excl incl =
        (p, if i1.withdraw then "✅" else "❌",
            if i2.deposit then "✅" else "❌")) ∧
    (∀ (cur1 cur2 : List (String × Networks)) (coin : String)
      (excl : List String) (incl : Bool) (c k₁ k₂ : String) (i1 i2 : NetInfo),
      (∀ p ∈ preferred_norm excl incl,
        p ∉ common_norm_keys ((dget cur1 coin).getD [])
          ((dget cur2 coin).getD [])) →
      c ∈ (common_norm_keys ((dget cur1 coin).getD [])
        ((dget cur2 coin).getD [])).filter
          (fun x => decide (x ∉ exclude_norm excl incl)) →
      (∀ c' ∈ (common_norm_keys ((dget cur1 coin).getD [])
        ((dget cur2 coin).getD [])).filter
          (fun x => decide (x ∉ exclude_norm excl incl)),
        str_lt c' c = false) →
      dlookupLast (norm_entries ((dget cur1 coin).getD [])) c =
        some (k₁, some i1) →
      dlookupLast (norm_entries ((dget cur2 coin).getD [])) c =
        some (k₂, some i2) →
      choose_common_chain cur1 cur2 coin excl incl =
        (c, if i1.withdraw then "✅" else "❌",
            if i2.deposit then "✅" else "❌")) ∧
    (∀ (cur1 cur2 : List (String × Networks)) (coin : String)
      (excl : List String) (incl : Bool) (p k₁ : String),
      IsFirstSatisfying
        (fun q => decide (q ∈ common_norm_keys ((dget cur1 coin).getD [])
          ((dget cur2 coin).getD []))) (preferred_norm excl incl) p →
      dlookupLast (norm_entries ((dget cur1 coin).getD [])) p =
        some (k₁, none) →
      choose_common_chain cur1 cur2 coin excl incl =
        ("❌ Unknown", "❌", "❌")) ∧
    (∀ (cur1 cur2 : List (String × Networks)) (coin : String)
      (excl : List String) (incl : Bool) (p k₁ k₂ : String) (i1 : NetInfo),
      IsFirstSatisfying
        (fun q => decide (q ∈ common_norm_keys ((dget cur1 coin).getD [])
          ((dget cur2 coin).getD []))) (preferred_norm excl incl) p →
      dlookupLast (norm_entries ((dget cur1 coin).getD [])) p =
        some (k₁, some i1) →
      dlookupLast (norm_entries ((dget cur2 coin).getD [])) p =
        some (k₂, none) →
      choose_common_chain cur1 cur2 coin excl incl =
        ("❌ Unknown", "❌", "❌")) ∧
    (∀ (cur1 cur2 : List (String × Networks)) (coin : String)
      (excl : List String) (incl : Bool),
      common_norm_keys ((dget cur1 coin).getD []) ((dget cur2 coin).getD []) =
        [] →
      choose_common_chain cur1 cur2 coin excl incl =
        ("❌ No chain", "❌", "❌")) ∧
    (∀ (cur1 cur2 : List (String × Networks)) (coin : String)
      (excl : List String) (incl : Bool),
      (∀ p ∈ preferred_norm excl incl,
        p ∉ common_norm_keys ((dget cur1 coin).getD [])
          ((dget cur2 coin).getD [])) →
      (∀ c ∈ common_norm_keys ((dget cur1 coin).getD [])
        ((dget cur2 coin).getD []), c ∈ exclude_norm excl incl) →
      choose_common_chain cur1 cur2 coin excl incl =
        ("❌ No chain", "❌", "❌")) := by
  have hmem : ∀ {q : String → Bool} {l : List String} {x : String},
      IsFirstSatisfying q l x → q x = true := by
    rintro q l x ⟨l₁, l₂, -, hx, -⟩; exact hx
  refine ⟨?_, ?_, ?_, ?_, ?_, ?_⟩
  · intro cur1 cur2 coin excl incl p k₁ k₂ i1 i2 hfirst h1 h2
    have hp : p ∈ common_norm_keys ((dget cur1 coin).getD [])
        ((dget cur2 coin).getD []) := by simpa using hmem hfirst
    simp only [choose_common_chain]
    rw [if_neg (List.ne_nil_of_mem hp), find?_of_isFirst hfirst]
    show chain_flags ((dget cur1 coin).getD []) ((dget cur2 coin).getD []) p = _
    simp only [chain_flags]
    rw [h1, h2]
  · intro cur1 cur2 coin excl incl c k₁ k₂ i1 i2 hnone hcmem hmin h1 h2
    have hcc : c ∈ common_norm_keys ((dget cur1 coin).getD [])
        ((dget cur2 coin).getD []) := (List.mem_filter.mp hcmem).1
    simp only [choose_common_chain]
    rw [if_neg (List.ne_nil_of_mem hcc),
      List.find?_eq_none.mpr (fun x hx => by simpa using hnone x hx),
      py_min_eq_some hcmem hmin]
    show chain_flags ((dget cur1 coin).getD []) ((dget cur2 coin).getD []) c = _
    simp only [chain_flags]
    rw [h1, h2]
  · intro cur1 cur2 coin excl incl p k₁ hfirst h1
    have hp : p ∈ common_norm_keys ((dget cur1 coin).getD [])
        ((dget cur2 coin).getD []) := by simpa using hmem hfirst
    simp only [choose_common_chain]
    rw [if_neg (List.ne_nil_of_mem hp), find?_of_isFirst hfirst]
    show chain_flags ((dget cur1 coin).getD []) ((dget cur2 coin).getD []) p = _
    simp only [chain_flags]
    rw [h1]
  · intro cur1 cur2 coin excl incl p k₁ k₂ i1 hfirst h1 h2
    have hp : p ∈ common_norm_keys ((dget cur1 coin).getD [])
        ((dget cur2 coin).getD []) := by simpa using hmem hfirst
    simp only [choose_common_chain]
    rw [if_neg (List.ne_nil_of_mem hp), find?_of_isFirst hfirst]
    show chain_flags ((dget cur1 coin).getD []) ((dget cur2 coin).getD []) p = _
    simp only [chain_flags]
    rw [h1, h2]
  · intro cur1 cur2 coin excl incl hc
    simp only [choose_common_chain]
    rw [if_pos hc]
  · intro cur1 cur2 coin excl incl hnone hexcl
    simp only [choose_common_chain]
    by_cases hempty : common_norm_keys ((dget cur1 coin).getD [])
        ((dget cur2 coin).getD []) = []
    · rw [if_pos hempty]
    · rw [if_neg hempty,
        List.find?_eq_none.mpr (fun x hx => by simpa using hnone x hx),
        List.filter_eq_nil_iff.mpr (fun a ha => by simpa using hexcl a ha)]
      rfl

/-- C6 witness: the amended clauses applied at concrete inputs. -/
theorem c6_choose_common_chain_amended_witness :
    choose_common_chain c6_curTRC c6_curTRC "XYZ" ["ETH"] false =
      ("TRON", "✅", "✅") ∧
    choose_common_chain c6_curQZ c6_curQZ "XYZ" [] false =
      ("QQQ", "❌", "✅") ∧
    choose_common_chain c6_curTRC c6_curQZ "XYZ" [] false =
      ("❌ No chain", "❌", "❌") :=
  ⟨c6_choose_common_chain_amended.1 c6_curTRC c6_curTRC "XYZ" ["ETH"] false
     "TRON" "TRC20" "TRC20" ⟨true, true⟩ ⟨true, true⟩
     ⟨[], ["BEP20", "SOL", "Polygon", "Arbitrum", "Optimism", "TON", "AVAX"],
       by decide, by decide, by decide⟩ (by decide) (by decide),
   c6_choose_common_chain_amended.2.1 c6_curQZ c6_curQZ "XYZ" [] false
     "QQQ" "QQQ" "QQQ" ⟨false, true⟩ ⟨false, true⟩
     (by decide) (by decide) (by decide) (by decide) (by decide),
   c6_choose_common_chain_amended.2.2.2.2.1 c6_curTRC c6_curQZ "XYZ" [] false
     (by decide)⟩

/-! ### C8 and C9 — candidate truncation and no self-pairs -/

/-- An emitted record carries the exchange ids and symbol of the triple that
produced it. -/
lemma process_symbol_shape {nowMs : ℤ} {now : ℚ} {bId sId : String}
    {bEx sEx : Exchange} {bTk sTk : List (String × Ticker)}
    {settings : Settings} {sym : String} {st : TrackerState} {r : Opp}
    {st₂ : TrackerState}
    (h : process_symbol nowMs now bId sId bEx sEx bTk sTk settings sym st =
      some (some r, st₂)) :
    r.buyId = bId ∧ r.sellId = sId ∧ r.pair = sym := by
  simp only [process_symbol] at h
  split at h
  next bt st₁ heqb heqs =>
    split at h
    next hfr => exact absurd h (by simp)
    next hfr =>
      split at h
      next bp sp hbp hsp =>
        split at h
        next hz => exact absurd h (by simp)
        next hz =>
          split at h
          next hsan => exact absurd h (by simp)
          next hsan =>
            split at h
            next hrange => exact absurd h (by simp)
            next hrange =>
              split at h
              next hvol => exact absurd h (by simp)
              next hvol =>
                split at h
                next hps => exact absurd h (by simp)
                next base quote hps =>
                  split at h
                  next hch => exact absurd h (by simp)
                  next hch =>
                    split at h
                    next hwd => exact absurd h (by simp)
                    next hwd =>
                      simp only [Option.some.injEq, Prod.mk.injEq] at h
                      obtain ⟨hr, -⟩ := h
                      refine ⟨?_, ?_, ?_⟩ <;> rw [← hr]
      next hmp => exact absurd h (by simp)
  next hdef => exact absurd h (by simp)

/-- Every record accumulated by the per-symbol loop carries the pair's ids
and a symbol from the iterated list. -/
lemma process_syms_records {nowMs : ℤ} {now : ℚ} {bId sId : String}
    {bEx sEx : Exchange} {bTk sTk : List (String × Ticker)}
    {settings : Settings} :
    ∀ (syms : List String) (st : TrackerState) {res : List Opp}
      {keys : List String} {st₂ : TrackerState},
    process_syms nowMs now bId sId bEx sEx bTk sTk settings syms st =
      some (res, keys, st₂) →
    ∀ r ∈ res, (r.buyId = bId ∧ r.sellId = sId) ∧ r.pair ∈ syms := by
  intro syms
  induction syms with
  | nil =>
    intro st res keys st₂ h r hr
    simp only [process_syms, Option.some.injEq, Prod.mk.injEq] at h
    rw [← h.1] at hr
    cases hr
  | cons sym rest ih =>
    intro st res keys st₂ h r hr
    simp only [process_syms] at h
    split at h
    next hps => cases h
    next st₃ hps =>
      obtain ⟨hids, hmem⟩ := ih st₃ h r hr
      exact ⟨hids, List.mem_cons_of_mem sym hmem⟩
    next r₀ st₃ hps =>
      split at h
      next hrec => cases h
      next res₀ keys₀ st₄ hrec =>
        simp only [Option.some.injEq, Prod.mk.injEq] at h
        rw [← h.1] at hr
        rcases List.mem_cons.mp hr with hre | hr
        · obtain ⟨h1, h2, h3⟩ := process_symbol_shape hps
          rw [hre]
          exact ⟨⟨h1, h2⟩, by rw [h3]; exact List.mem_cons_self sym rest⟩
        · obtain ⟨hids, hmem⟩ := ih st₃ hrec r hr
          exact ⟨hids, List.mem_cons_of_mem sym hmem⟩

/-- Every record produced by the per-pair body carries the pair's ids and a
symbol from the volume-sorted, truncated symbol list. -/
lemma process_pair_records {nowMs : ℤ} {now : ℚ} {bId sId : String}
    {bEx sEx : Exchange} {bTk sTk : List (String × Ticker)}
    {settings : Settings} {st : TrackerState} {syms : List String}
    {res : List Opp} {keys : List String} {st₂ : TrackerState}
    (hsyms : pair_symbols bEx sEx bTk sTk = some syms)
    (h : process_pair nowMs now bId sId bEx sEx bTk sTk settings st =
      some (res, keys, st₂)) :
    ∀ r ∈ res, (r.buyId = bId ∧ r.sellId = sId) ∧ r.pair ∈ syms := by
  have heq : process_pair nowMs now bId sId bEx sEx bTk sTk settings st =
      process_syms nowMs now bId sId bEx sEx bTk sTk settings syms st := by
    unfold process_pair
    rw [hsyms]
  rw [heq] at h
  exact process_syms_records syms st h

/-- Every record produced by the per-pair body carries the pair's ids. -/
lemma process_pair_ids {nowMs : ℤ} {now : ℚ} {bId sId : String}
    {bEx sEx : Exchange} {bTk sTk : List (String × Ticker)}
    {settings : Settings} {st : TrackerState} {res : List Opp}
    {keys : List String} {st₂ : TrackerState}
    (h : process_pair nowMs now bId sId bEx sEx bTk sTk settings st =
      some (res, keys, st₂)) :
    ∀ r ∈ res, r.buyId = bId ∧ r.sellId = sId := by
  cases hsy : pair_symbols bEx sEx bTk sTk with
  | none =>
    exfalso
    unfold process_pair at h
    rw [hsy] at h
    exact absurd h (by simp)
  | some syms => exact fun r hr => (process_pair_records hsy h r hr).1

/-- The inner sell loop only emits records whose buy and sell exchanges
differ. -/
lemma run_sells_ids {env : ScanEnv} {settings : Settings} {bId : String} :
    ∀ (sells : List String) (st : TrackerState) {res : List Opp}
      {keys : List String} {st₂ : TrackerState},
    run_sells env settings bId sells st = some (res, keys, st₂) →
    ∀ r ∈ res, r.buyId ≠ r.sellId := by
  intro sells
  induction sells with
  | nil =>
    intro st res keys st₂ h r hr
    simp only [run_sells, Option.some.injEq, Prod.mk.injEq] at h
    rw [← h.1] at hr
    cases hr
  | cons sId rest ih =>
    intro st res keys st₂ h r hr
    simp only [run_sells] at h
    split at h
    next heq => exact ih st h r hr
    next hne =>
      split at h
      next bEx sEx hbEx hsEx =>
        split at h
        next hpp => cases h
        next r₁ k₁ st₃ hpp =>
          split at h
          next hrec => cases h
          next res₀ keys₀ st₄ hrec =>
            simp only [Option.some.injEq, Prod.mk.injEq] at h
            rw [← h.1] at hr
            rcases List.mem_append.mp hr with hr | hr
            · obtain ⟨h1, h2⟩ := process_pair_ids hpp r hr
              rw [h1, h2]
              exact hne
            · exact ih st₃ hrec r hr
      next hdef => exact ih st h r hr

/-- The outer buy loop only emits records whose buy and sell exchanges
differ. -/
lemma run_buys_ids {env : ScanEnv} {settings : Settings} :
    ∀ (buys : List String) (st : TrackerState) {res : List Opp}
      {keys : List String} {st₂ : TrackerState},
    run_buys env settings buys st = some (res, keys, st₂) →
    ∀ r ∈ res, r.buyId ≠ r.sellId := by
  intro buys
  induction buys with
  | nil =>
    intro st res keys st₂ h r hr
    simp only [run_buys, Option.some.injEq, Prod.mk.injEq] at h
    rw [← h.1] at hr
    cases hr
  | cons bId rest ih =>
    intro st res keys st₂ h r hr
    simp only [run_buys] at h
    split at h
    next hsl => cases h
    next r₁ k₁ st₃ hsl =>
      split at h
      next hrec => cases h
      next res₀ keys₀ st₄ hrec =>
        simp only [Option.some.injEq, Prod.mk.injEq] at h
        rw [← h.1] at hr
        rcases List.mem_append.mp hr with hr | hr
        · exact run_sells_ids settings.sell_exchanges st hsl r hr
        · exact ih st₃ hrec r hr

/-- C9: no scan result ever pairs an exchange with itself — the diagonal
pair is skipped before any symbol enumeration, so every emitted record's
buy exchange id differs from its sell exchange id, even when the same id
appears in both the buy and the sell list. -/
theorem c9_no_self_pair :
    ∀ (env : ScanEnv) (settings : Settings) (st₀ : TrackerState)
      (res : List Opp) (st₂ : TrackerState),
      run_scan env settings st₀ = some (res, st₂) →
      ∀ r ∈ res, r.buyId ≠ r.sellId := by
  intro env settings st₀ res st₂ h r hr
  simp only [run_scan] at h
  split at h
  · simp only [Option.some.injEq, Prod.mk.injEq] at h
    rw [← h.1] at hr
    cases hr
  · split at h
    next hbuys => cases h
    next res₀ keys₀ st₃ hbuys =>
      simp only [Option.some.injEq, Prod.mk.injEq] at h
      rw [← h.1] at hr
      exact run_buys_ids settings.buy_exchanges st₀ hbuys r hr

/-- Strictly fewer matches than elements when some element does not match. -/
lemma countP_lt_length {α : Type} {p : α → Bool} :
    ∀ {l : List α} {x : α}, x ∈ l → p x = false → l.countP p < l.length := by
  intro l
  induction l with
  | nil => intro x hx; cases hx
  | cons a as ih =>
    intro x hx hpx
    rw [List.countP_cons, List.length_cons]
    rcases List.mem_cons.mp hx with hxe | hx
    · rw [← hxe, hpx]
      simp only [Bool.false_eq_true, if_false]
      have := List.countP_le_length (p := p) (l := as)
      omega
    · have h1 := ih hx hpx
      have hone : (if p a then 1 else 0) ≤ 1 := by split <;> omega
      omega

/-- C8: per exchange pair, symbols are evaluated only from the top-1000
truncation of the descending volume sort: every emitted record's symbol is
in the truncated list, the truncated list never exceeds 1000 symbols, and
every evaluated symbol is outscored by fewer than 1000 eligible symbols —
hence a symbol ranked 1001st or lower by combined volume (one with at least
1000 strictly higher-volume eligible competitors) is never evaluated and
never produces a record, profitable or not. -/
theorem c8_symbol_truncation :
    (∀ (nowMs : ℤ) (now : ℚ) (bId sId : String) (bEx sEx : Exchange)
      (bTk sTk : List (String × Ticker)) (settings : Settings)
      (st : TrackerState) (syms : List String) (res : List Opp)
      (keys : List String) (st₂ : TrackerState),
      pair_symbols bEx sEx bTk sTk = some syms →
      process_pair nowMs now bId sId bEx sEx bTk sTk settings st =
        some (res, keys, st₂) →
      ∀ r ∈ res, r.pair ∈ syms) ∧
    (∀ (bEx sEx : Exchange) (bTk sTk : List (String × Ticker))
      (syms : List String),
      pair_symbols bEx sEx bTk sTk = some syms → syms.length ≤ 1000) ∧
    (∀ (bEx sEx : Exchange) (bTk sTk : List (String × Ticker))
      (elig syms : List String) (s : String),
      eligible_symbols bEx.markets sEx.markets (common_symbols bEx sEx) =
        some elig →
      pair_symbols bEx sEx bTk sTk = some syms →
      s ∈ syms →
      elig.countP
        (fun x => vol_score bTk sTk s < vol_score bTk sTk x) < 1000) := by
  refine ⟨?_, ?_, ?_⟩
  · intro nowMs now bId sId bEx sEx bTk sTk settings st syms res keys st₂
      hsyms h r hr
    exact (process_pair_records hsyms h r hr).2
  · intro bEx sEx bTk sTk syms hsyms
    cases helig : eligible_symbols bEx.markets sEx.markets
        (common_symbols bEx sEx) with
    | none =>
      exfalso
      unfold pair_symbols at hsyms
      rw [helig] at hsyms
      exact absurd hsyms (by simp)
    | some elig =>
      have : pair_symbols bEx sEx bTk sTk = some ((elig.insertionSort
          (fun a b => vol_score bTk sTk b ≤ vol_score bTk sTk a)).take 1000) := by
        unfold pair_symbols
        rw [helig]
      rw [this] at hsyms
      rw [← Option.some.inj hsyms]
      exact le_trans (List.length_take_le 1000 _) (le_refl 1000)
  · intro bEx sEx bTk sTk elig syms s helig hsyms hs
    have hpair : pair_symbols bEx sEx bTk sTk = some ((elig.insertionSort
        (fun a b => vol_score bTk sTk b ≤ vol_score bTk sTk a)).take 1000) := by
      unfold pair_symbols
      rw [helig]
    rw [hpair] at hsyms
    have hsy : syms = (elig.insertionSort
        (fun a b => vol_score bTk sTk b ≤ vol_score bTk sTk a)).take 1000 :=
      (Option.some.inj hsyms).symm
    rw [hsy] at hs
    haveI hT : IsTotal String
        (fun a b => vol_score bTk sTk b ≤ vol_score bTk sTk a) :=
      ⟨fun a b => le_total _ _⟩
    haveI hTr : IsTrans String
        (fun a b => vol_score bTk sTk b ≤ vol_score bTk sTk a) :=
      ⟨fun a b c h1 h2 => le_trans h2 h1⟩
    have hsorted : List.Pairwise
        (fun a b => vol_score bTk sTk b ≤ vol_score bTk sTk a)
        (elig.insertionSort
          (fun a b => vol_score bTk sTk b ≤ vol_score bTk sTk a)) :=
      List.sorted_insertionSort _ elig
    have hperm : (elig.insertionSort
        (fun a b => vol_score bTk sTk b ≤ vol_score bTk sTk a)).Perm elig :=
      List.perm_insertionSort _ elig
    have hcount := (hperm.countP_eq
      (fun x => decide (vol_score bTk sTk s < vol_score bTk sTk x)))
    rw [← hcount]
    rw [← List.take_append_drop 1000 (elig.insertionSort
      (fun a b => vol_score bTk sTk b ≤ vol_score bTk sTk a))] at hsorted
    obtain ⟨-, -, hcross⟩ := List.pairwise_append.mp hsorted
    rw [← List.take_append_drop 1000 (elig.insertionSort
      (fun a b => vol_score bTk sTk b ≤ vol_score bTk sTk a)),
      List.countP_append]
    have hdrop : ((elig.insertionSort
        (fun a b => vol_score bTk sTk b ≤ vol_score bTk sTk a)).drop
          1000).countP
        (fun x => decide (vol_score bTk sTk s < vol_score bTk sTk x)) = 0 := by
      rw [List.countP_eq_zero]
      intro x hx
      have hle := hcross s hs x hx
      simp only [decide_eq_true_eq]
      exact not_lt.mpr hle
    have htake : ((elig.insertionSort
        (fun a b => vol_score bTk sTk b ≤ vol_score bTk sTk a)).take
          1000).countP
        (fun x => decide (vol_score bTk sTk s < vol_score bTk sTk x)) <
        1000 := by
      have hlt := countP_lt_length
        (p := fun x => decide (vol_score bTk sTk s < vol_score bTk sTk x)) hs
        (by simp)
      exact lt_of_lt_of_le hlt (List.length_take_le 1000 _)
    omega

/-- The demonstration pair's eligible common symbols: just "AAA/USDT". -/
lemma demo_eligible :
    eligible_symbols demoEx.markets demoEx.markets
      (common_symbols demoEx demoEx) = some ["AAA/USDT"] := by
  decide

/-- The demonstration pair's volume-sorted, truncated symbol list. -/
lemma demo_pair_symbols :
    pair_symbols demoEx demoEx demoTkA (demoTkB 102) = some ["AAA/USDT"] := by
  decide

/-- The demonstration pair's per-symbol loop emits exactly the sell-price-102
record and its opportunity key. -/
lemma demo_process_pair :
    process_pair 0 0 "b1" "s1" demoEx demoEx demoTkA (demoTkB 102)
      demoSettings trackerInit =
      some ([demoRec102], ["AAA/USDT|b1>s1"], demoSt102) := by
  have h1 : process_pair 0 0 "b1" "s1" demoEx demoEx demoTkA (demoTkB 102)
      demoSettings trackerInit =
      process_syms 0 0 "b1" "s1" demoEx demoEx demoTkA (demoTkB 102)
        demoSettings ["AAA/USDT"] trackerInit := by
    unfold process_pair
    rw [demo_pair_symbols]
  rw [h1]
  unfold process_syms
  rw [demo_eval_102]
  rfl

/-- Restatement of `demo_process_pair` with the scan-snapshot projections
left unevaluated, in the exact shape produced by unfolding `run_sells`. -/
lemma demo_process_pair_env :
    process_pair demoEnv.nowMs demoEnv.now "b1" "s1" demoEx demoEx
      ((dget demoEnv.bulk "b1").getD []) ((dget demoEnv.bulk "s1").getD [])
      demoSettings trackerInit =
      some ([demoRec102], ["AAA/USDT|b1>s1"], demoSt102) := by
  show process_pair 0 0 "b1" "s1" demoEx demoEx demoTkA (demoTkB 102)
      demoSettings trackerInit = _
  exact demo_process_pair

/-- The inner sell loop over the demonstration snapshot. -/
lemma demo_run_sells :
    run_sells demoEnv demoSettings "b1" ["s1"] trackerInit =
      some ([demoRec102], ["AAA/USDT|b1>s1"], demoSt102) := by
  have hb : dget demoEnv.exObjs "b1" = some demoEx := rfl
  have hs : dget demoEnv.exObjs "s1" = some demoEx := rfl
  unfold run_sells
  rw [if_neg (by decide : ¬ ("b1" : String) = "s1"), hb, hs]
  simp only [demo_process_pair_env, run_sells, List.append_nil]

/-- The outer buy loop over the demonstration snapshot. -/
lemma demo_run_buys :
    run_buys demoEnv demoSettings ["b1"] trackerInit =
      some ([demoRec102], ["AAA/USDT|b1>s1"], demoSt102) := by
  unfold run_buys
  rw [show demoSettings.sell_exchanges = ["s1"] from rfl]
  simp only [demo_run_sells, run_buys, List.append_nil]

/-- The full demonstration scan: one record, reconciled tracker state. -/
lemma demo_run_scan :
    run_scan demoEnv demoSettings trackerInit =
      some ([demoRec102], demoFinalSt) := by
  unfold run_scan
  rw [if_neg (by decide :
    ¬ (demoSettings.buy_exchanges.isEmpty ∨ demoSettings.sell_exchanges.isEmpty))]
  rw [show demoSettings.buy_exchanges = ["b1"] from rfl]
  rw [demo_run_buys]
  rfl

/-- Witness instantiating C8 at the demonstration pair: the emitted record's
symbol is in the truncated list, the list has at most 1000 symbols, and the
evaluated symbol has fewer than 1000 strictly higher-volume eligible
competitors. -/
theorem c8_symbol_truncation_witness :
    demoRec102.pair ∈ ["AAA/USDT"] ∧
    (["AAA/USDT"] : List String).length ≤ 1000 ∧
    (["AAA/USDT"] : List String).countP
      (fun x => vol_score demoTkA (demoTkB 102) "AAA/USDT" <
        vol_score demoTkA (demoTkB 102) x) < 1000 :=
  ⟨c8_symbol_truncation.1 0 0 "b1" "s1" demoEx demoEx demoTkA (demoTkB 102)
      demoSettings trackerInit ["AAA/USDT"] [demoRec102] ["AAA/USDT|b1>s1"]
      demoSt102 demo_pair_symbols demo_process_pair demoRec102
      (List.mem_cons_self demoRec102 []),
   c8_symbol_truncation.2.1 demoEx demoEx demoTkA (demoTkB 102) ["AAA/USDT"]
      demo_pair_symbols,
   c8_symbol_truncation.2.2 demoEx demoEx demoTkA (demoTkB 102) ["AAA/USDT"]
      ["AAA/USDT"] "AAA/USDT" demo_eligible demo_pair_symbols
      (List.mem_cons_self "AAA/USDT" [])⟩

/-- Witness instantiating C9 at the demonstration scan: the single emitted
record buys on "b1" and sells on "s1". -/
theorem c9_no_self_pair_witness :
    demoRec102.buyId ≠ demoRec102.sellId :=
  c9_no_self_pair demoEnv demoSettings trackerInit [demoRec102] demoFinalSt
    demo_run_scan demoRec102 (List.mem_cons_self demoRec102 [])

end ArbScreener
